import Mathlib

/-!
Verification of the waddle UDMF level compiler against its specification.

This file is a shallow embedding of the Rust sources:
  * `src/string8.rs`          — the fixed 8-byte identifier string
  * `src/map.rs`              — `RawMap::link` / `Map::unlink`
  * `src/map/sector.rs`       — sector entity and its `Special`
  * `src/map/udmf.rs`         — the block compiler and the writer
  * `src/map/udmf/parse.rs`   — the winnow-based textmap parser
  * `waddle/src/map/line_def.rs` together with `waddle_derive/src/lib.rs`
                              — the action-mapping table and the generated
                                wide (UDMF) encode/decode conversions

Conventions used throughout the embedding:
  * Rust machine integers are modelled as `Int` (values) or `Nat`
    (lengths, indices); width checks appearing in the code are modelled
    by the same explicit bound checks the code performs.
  * `f64` literals flow through the pipeline untouched (they are only
    stored, moved and compared), so their payload is modelled as `ℚ`.
  * Rust byte strings (`&[u8]`, `String`) are modelled as `List Nat`;
    `str::from_utf8` is modelled by an executable UTF-8 validator.
  * slotmap keys for a map built by insertion only (the only way `link`
    builds one) are the insertion positions, so slotmaps are modelled as
    lists whose n-th element has key n.
  * fallible Rust functions return `Except`.
-/

namespace Waddle

/-! ## UTF-8 (model of `str::from_utf8` / `str::as_bytes`) -/

/-- A UTF-8 continuation byte (`0x80..=0xBF`). -/
def isUtf8Cont (b : Nat) : Bool := 0x80 ≤ b && b ≤ 0xBF

/-- Executable model of `str::from_utf8` validity: accepts exactly the
well-formed UTF-8 byte sequences (rejecting overlong forms and
surrogates, as the Rust standard library does). -/
def utf8Valid : List Nat → Bool
  | [] => true
  | b :: rest =>
    if b ≤ 0x7F then utf8Valid rest
    else if 0xC2 ≤ b && b ≤ 0xDF then
      match rest with
      | c1 :: r => isUtf8Cont c1 && utf8Valid r
      | [] => false
    else if b = 0xE0 then
      match rest with
      | c1 :: c2 :: r => (0xA0 ≤ c1 && c1 ≤ 0xBF) && isUtf8Cont c2 && utf8Valid r
      | _ => false
    else if (0xE1 ≤ b && b ≤ 0xEC) || (0xEE ≤ b && b ≤ 0xEF) then
      match rest with
      | c1 :: c2 :: r => isUtf8Cont c1 && isUtf8Cont c2 && utf8Valid r
      | _ => false
    else if b = 0xED then
      match rest with
      | c1 :: c2 :: r => (0x80 ≤ c1 && c1 ≤ 0x9F) && isUtf8Cont c2 && utf8Valid r
      | _ => false
    else if b = 0xF0 then
      match rest with
      | c1 :: c2 :: c3 :: r =>
        (0x90 ≤ c1 && c1 ≤ 0xBF) && isUtf8Cont c2 && isUtf8Cont c3 && utf8Valid r
      | _ => false
    else if 0xF1 ≤ b && b ≤ 0xF3 then
      match rest with
      | c1 :: c2 :: c3 :: r =>
        isUtf8Cont c1 && isUtf8Cont c2 && isUtf8Cont c3 && utf8Valid r
      | _ => false
    else if b = 0xF4 then
      match rest with
      | c1 :: c2 :: c3 :: r =>
        (0x80 ≤ c1 && c1 ≤ 0x8F) && isUtf8Cont c2 && isUtf8Cont c3 && utf8Valid r
      | _ => false
    else false

/-- UTF-8 encoding of one scalar value (model of Rust `char` encoding,
used by `str::as_bytes`). -/
def utf8EncodeChar (c : Char) : List Nat :=
  let n := c.toNat
  if n ≤ 0x7F then [n]
  else if n ≤ 0x7FF then [0xC0 + n / 64, 0x80 + n % 64]
  else if n ≤ 0xFFFF then
    [0xE0 + n / 4096, 0x80 + (n / 64) % 64, 0x80 + n % 64]
  else
    [0xF0 + n / 0x40000, 0x80 + (n / 4096) % 64, 0x80 + (n / 64) % 64, 0x80 + n % 64]

/-- `str::as_bytes` on a list of chars. -/
def utf8Encode (s : List Char) : List Nat := (s.map utf8EncodeChar).flatten

/-! ## `src/string8.rs` -/

/-- `String8([u8; 8])`: the 8-byte fixed-capacity identifier string. -/
structure String8 where
  bytes : List Nat
deriving DecidableEq, Repr

/-- `IntoString8Error` from `src/string8.rs`. -/
inductive IntoString8Error where
  | Nul (position : Nat)
  | Len (length : Nat)
deriving DecidableEq, Repr

/-- `String8::from_bytes_unchecked`: zero array, then copy
`min(8, len)` bytes (callers guarantee `len ≤ 8`). -/
def String8.from_bytes_unchecked (bytes : List Nat) : String8 :=
  ⟨bytes.take 8 ++ List.replicate (8 - min 8 bytes.length) 0⟩

/-- `String8::from_bytes`: reject byte strings longer than 8 bytes, then
reject an interior NUL, located by reversing the bytes, skipping the
trailing NUL run and searching the remainder for a NUL. -/
def String8.from_bytes (bytes : List Nat) : Except IntoString8Error String8 :=
  if bytes.length > 8 then .error (.Len bytes.length)
  else
    match (bytes.reverse.dropWhile (· == 0)).findIdx? (· == 0) with
    | some position => .error (.Nul position)
    | none => .ok (String8.from_bytes_unchecked bytes)

/-- `String8::try_as_str`: `p` is the position of the first byte that is
NOT zero (`position(|&byte| byte != 0)` in the source), defaulting to 8,
and the UTF-8 view of the first `p` bytes is returned. -/
def String8.try_as_str (s : String8) : Except Unit (List Nat) :=
  let p := (s.bytes.findIdx? (· != 0)).getD 8
  let pre := s.bytes.take p
  if utf8Valid pre then .ok pre else .error ()

/-- C1. For every byte sequence `s` with length at most 8 and no interior
NUL, `String8::from_bytes s` returns `Ok`, and `try_as_str` on the result
returns `Ok` of a string whose bytes equal `s`.

The construction half holds, but the projection half is falsified by the
code: `try_as_str` cuts the array at the position of the first *non-zero*
byte, so `from_bytes [65]` round-trips to the empty string, not to
`[65]`.  This theorem evaluates the code at the failing input `s = [65]`
(the one-byte string `"A"`). -/
theorem c1_string8_roundtrip_code_bug :
    String8.from_bytes [65] = .ok ⟨[65, 0, 0, 0, 0, 0, 0, 0]⟩ ∧
    String8.try_as_str ⟨[65, 0, 0, 0, 0, 0, 0, 0]⟩ = .ok [] ∧
    ([] : List Nat) ≠ [65] := by
  refine ⟨rfl, rfl, by decide⟩

/-! ## Primitive value types (`src/number.rs`, `src/point.rs`) -/

/-- `Number`: `Int(i32)` or `Float(f64)`.  The float payload is only ever
stored and compared by the code under verification, so it is modelled
exactly by `ℚ`. -/
inductive Number where
  | int (i : Int)
  | float (q : ℚ)
deriving DecidableEq, Repr

/-- `Point<T>`. -/
structure Point (α : Type) where
  x : α
  y : α
deriving DecidableEq, Repr

/-! ## Entities (`src/map/*.rs`, `waddle/src/map/line_def.rs`) -/

/-- `Vertex` (`src/map/vertex.rs`): a `Point<Number>` position. -/
structure Vertex where
  position : Point Number
deriving DecidableEq, Repr

/-- `sector::Special` (`src/map/sector.rs`): the only variant is `None`. -/
inductive SectorSpecial where
  | None
deriving DecidableEq, Repr

/-- `TryFrom<i16> for sector::Special`: `0` maps to `None`, everything
else is rejected carrying the offending value. -/
def sectorSpecialTryFrom (n : Int) : Except Int SectorSpecial :=
  if n = 0 then .ok SectorSpecial.None else .error n

/-- `i16::from(sector::Special)`. -/
def sectorSpecialToInt : SectorSpecial → Int
  | SectorSpecial.None => 0

/-- `Sector` (`src/map/sector.rs`). -/
structure Sector where
  floor_height : Int
  ceiling_height : Int
  floor_flat : String8
  ceiling_flat : String8
  light_level : Nat
  special : SectorSpecial
  tag : Int
deriving DecidableEq, Repr

/-- `RawSideDef` (`src/map/side_def.rs`). -/
structure RawSideDef where
  sector_idx : Nat
  offset : Point Int
  upper_texture : String8
  middle_texture : String8
  lower_texture : String8
deriving DecidableEq, Repr

/-- `SideDef` (`src/map/side_def.rs`); the `SectorKey` is modelled as the
sector's insertion position. -/
structure SideDef where
  sector : Nat
  offset : Point Int
  upper_texture : String8
  middle_texture : String8
  lower_texture : String8
deriving DecidableEq, Repr

/-- `line_def::Flags` (`waddle/src/map/line_def.rs`); `Default` derives
to all-false. -/
structure LineDefFlags where
  impassable : Bool
  blocks_monsters : Bool
  two_sided : Bool
  upper_unpegged : Bool
  lower_unpegged : Bool
  secret : Bool
  blocks_sound : Bool
  not_on_map : Bool
  already_on_map : Bool
deriving DecidableEq, Repr

def lineDefFlagsDefault : LineDefFlags :=
  ⟨false, false, false, false, false, false, false, false, false⟩

/-- `line_def::TriggerFlags` (`waddle/src/map/line_def.rs`); `Default`
derives to all-false. -/
structure TriggerFlags where
  player_cross : Bool
  player_use : Bool
  monster_cross : Bool
  monster_use : Bool
  impact : Bool
  player_push : Bool
  monster_push : Bool
  missile_cross : Bool
  repeats : Bool
  monsters_activate : Bool
deriving DecidableEq, Repr

def triggerFlagsDefault : TriggerFlags :=
  ⟨false, false, false, false, false, false, false, false, false, false⟩

/-- One row of the action-mapping table: a canonical `Special` variant is
its declared name, its `#[udmf(code)]` wide code and its number of named
`i16` fields (0–5). -/
structure SpecialEntry where
  name : String
  code : Int
  nargs : Nat
deriving DecidableEq, Repr

/-- A value of the canonical `Special` tagged union: which variant (as a
position in the declaration order of the enum) and the values of its
fields, in declaration order. -/
structure SpecialVal where
  variant : Nat
  args : List Int
deriving DecidableEq, Repr

/-- `UdmfSpecial` (`waddle/src/map/line_def.rs`): wide code plus the
five-slot argument array. -/
structure UdmfSpecial where
  value : Int
  args : List Int
deriving DecidableEq, Repr

/-- `RawLineDef` (fields as read and written by `src/map.rs` and
`src/map/udmf.rs`; flag/special types from `waddle/src/map/line_def.rs`). -/
structure RawLineDef where
  from_idx : Nat
  to_idx : Nat
  left_side_idx : Nat
  right_side_idx : Option Nat
  flags : LineDefFlags
  special : SpecialVal
  trigger_flags : TriggerFlags
deriving DecidableEq, Repr

/-- `LineDef` (graph form); vertex/side-def keys are insertion positions.
The Rust fields `from`/`to` are Lean keywords and are rendered
`from_v`/`to_v`. -/
structure LineDef where
  from_v : Nat
  to_v : Nat
  left_side : Nat
  right_side : Option Nat
  flags : LineDefFlags
  special : SpecialVal
  trigger_flags : TriggerFlags
deriving DecidableEq, Repr

/-- `thing::Flags` (`src/map/thing.rs`). -/
structure ThingFlags where
  skill1 : Bool
  skill2 : Bool
  skill3 : Bool
  skill4 : Bool
  skill5 : Bool
  ambush : Bool
  single : Bool
  dm : Bool
  coop : Bool
  mbf_friend : Bool
  dormant : Bool
  class1 : Bool
  class2 : Bool
  class3 : Bool
  npc : Bool
  strife_ally : Bool
  translucent : Bool
  invisible : Bool
deriving DecidableEq, Repr

/-- `impl Default for thing::Flags`: the nine play-mode/skill flags are
true, the rest false. -/
def thingFlagsDefault : ThingFlags :=
  { skill1 := true, skill2 := true, skill3 := true, skill4 := true,
    skill5 := true, ambush := true, single := true, dm := true, coop := true,
    mbf_friend := false, dormant := false, class1 := false, class2 := false,
    class3 := false, npc := false, strife_ally := false, translucent := false,
    invisible := false }

/-- `thing::Special` (`src/map/thing.rs`): only `None`. -/
inductive ThingSpecial where
  | None
deriving DecidableEq, Repr

/-- `Thing` (`src/map/thing.rs`). -/
structure Thing where
  position : Point Number
  height : Int
  angle : Int
  type_ : Int
  flags : ThingFlags
  special : ThingSpecial
deriving DecidableEq, Repr

/-! ## `src/map.rs`: `RawMap`, `Map`, link and unlink -/

/-- `RawMap`: flat entity vectors with positional cross-references. -/
structure RawMap where
  name : String8
  vertexes : List Vertex
  line_defs : List RawLineDef
  sectors : List Sector
  side_defs : List RawSideDef
  things : List Thing
deriving DecidableEq, Repr

/-- `Map`: the linked graph form.  Each slotmap built by `link` (pure
insertion, no removals) is modelled as the list of its values in
insertion order, the key of the n-th value being n. -/
structure Map where
  name : String8
  vertexes : List Vertex
  line_defs : List LineDef
  sectors : List Sector
  side_defs : List SideDef
  things : List Thing
deriving DecidableEq, Repr

/-- `EntityKind` (`src/map.rs`). -/
inductive EntityKind where
  | Vertex
  | LineDef
  | Sector
  | SideDef
  | Thing
deriving DecidableEq, Repr

/-- `LinkError` (`src/map.rs`). -/
inductive LinkError where
  | IndexOutOfRange (referrer : EntityKind) (referrer_index : Nat)
      (field : String) (referee : EntityKind) (referee_index : Nat)
deriving DecidableEq, Repr

/-- `UnlinkError` (`src/map.rs`). -/
inductive UnlinkError where
  | InvalidKey (referrer : EntityKind) (referrer_index : Nat)
      (field : String) (referee : EntityKind)
  | IndexTooLarge (entity_kind : EntityKind)
deriving DecidableEq, Repr

/-- The side-def loop of `RawMap::link`: resolve each `sector_idx`
through the sector position→key table (the identity on `[0, nsectors)`
in this model), failing on the first out-of-range index. -/
def linkSides (nsectors : Nat) : Nat → List RawSideDef → Except LinkError (List SideDef)
  | _, [] => .ok []
  | i, sd :: rest =>
    if sd.sector_idx < nsectors then do
      let tail ← linkSides nsectors (i + 1) rest
      .ok (⟨sd.sector_idx, sd.offset, sd.upper_texture, sd.middle_texture,
            sd.lower_texture⟩ :: tail)
    else .error (.IndexOutOfRange .SideDef i "sector" .Sector sd.sector_idx)

/-- Resolution of an optional `right_side_idx` (`Option::map` +
`transpose` in the source). -/
def linkRight (nsides i : Nat) : Option Nat → Except LinkError (Option Nat)
  | none => .ok none
  | some r =>
    if r < nsides then .ok (some r)
    else .error (.IndexOutOfRange .LineDef i "right_side" .SideDef r)

/-- The line-def loop of `RawMap::link`: resolve `from`/`to` through the
vertex table and `left_side`/`right_side` through the side-def table, in
source order. -/
def linkLines (nverts nsides : Nat) : Nat → List RawLineDef → Except LinkError (List LineDef)
  | _, [] => .ok []
  | i, ld :: rest =>
    if ld.from_idx < nverts then
      if ld.to_idx < nverts then
        if ld.left_side_idx < nsides then do
          let right ← linkRight nsides i ld.right_side_idx
          let tail ← linkLines nverts nsides (i + 1) rest
          .ok (⟨ld.from_idx, ld.to_idx, ld.left_side_idx, right, ld.flags,
                ld.special, ld.trigger_flags⟩ :: tail)
        else .error (.IndexOutOfRange .LineDef i "left_side" .SideDef ld.left_side_idx)
      else .error (.IndexOutOfRange .LineDef i "to" .Vertex ld.to_idx)
    else .error (.IndexOutOfRange .LineDef i "from" .Vertex ld.from_idx)

/-- `RawMap::link`: vertexes and sectors are inserted first (keys =
positions), then side-defs, then line-defs, then things. -/
def RawMap.link (raw : RawMap) : Except LinkError Map := do
  let side_defs ← linkSides raw.sectors.length 0 raw.side_defs
  let line_defs ← linkLines raw.vertexes.length raw.side_defs.length 0 raw.line_defs
  .ok ⟨raw.name, raw.vertexes, line_defs, raw.sectors, side_defs, raw.things⟩

/-- The side-def loop of `Map::unlink`: rewrite each sector key through
the key→position table (identity on `[0, nsectors)`). -/
def unlinkSides (nsectors : Nat) : Nat → List SideDef → Except UnlinkError (List RawSideDef)
  | _, [] => .ok []
  | i, sd :: rest =>
    if sd.sector < nsectors then do
      let tail ← unlinkSides nsectors (i + 1) rest
      .ok (⟨sd.sector, sd.offset, sd.upper_texture, sd.middle_texture,
            sd.lower_texture⟩ :: tail)
    else .error (.InvalidKey .SideDef i "sector" .Sector)

/-- Rewrite of an optional right-side key in `Map::unlink`. -/
def unlinkRight (nsides i : Nat) : Option Nat → Except UnlinkError (Option Nat)
  | none => .ok none
  | some r =>
    if r < nsides then .ok (some r)
    else .error (.InvalidKey .LineDef i "right_side" .SideDef)

/-- The line-def loop of `Map::unlink`. -/
def unlinkLines (nverts nsides : Nat) : Nat → List LineDef → Except UnlinkError (List RawLineDef)
  | _, [] => .ok []
  | i, ld :: rest =>
    if ld.from_v < nverts then
      if ld.to_v < nverts then
        if ld.left_side < nsides then do
          let right ← unlinkRight nsides i ld.right_side
          let tail ← unlinkLines nverts nsides (i + 1) rest
          .ok (⟨ld.from_v, ld.to_v, ld.left_side, right, ld.flags,
                ld.special, ld.trigger_flags⟩ :: tail)
        else .error (.InvalidKey .LineDef i "left_side" .SideDef)
      else .error (.InvalidKey .LineDef i "to" .Vertex)
    else .error (.InvalidKey .LineDef i "from" .Vertex)

/-- `Map::unlink`: first the five 16-bit capacity checks, in source
order, then the conversion loops. -/
def Map.unlink (m : Map) : Except UnlinkError RawMap :=
  if m.vertexes.length > 65535 then .error (.IndexTooLarge .Vertex)
  else if m.line_defs.length > 65535 then .error (.IndexTooLarge .LineDef)
  else if m.sectors.length > 65535 then .error (.IndexTooLarge .Sector)
  else if m.side_defs.length > 65535 then .error (.IndexTooLarge .SideDef)
  else if m.things.length > 65535 then .error (.IndexTooLarge .Thing)
  else do
    let side_defs ← unlinkSides m.sectors.length 0 m.side_defs
    let line_defs ← unlinkLines m.vertexes.length m.side_defs.length 0 m.line_defs
    .ok ⟨m.name, m.vertexes, line_defs, m.sectors, side_defs, m.things⟩

/-- The per-line-def bound checks performed by `link`. -/
def lineInBounds (nverts nsides : Nat) (ld : RawLineDef) : Bool :=
  decide (ld.from_idx < nverts) && decide (ld.to_idx < nverts) &&
  decide (ld.left_side_idx < nsides) && ld.right_side_idx.all (fun r => r < nsides)

/-- All positional cross-references of a raw map are in bounds. -/
def RawMap.inBounds (raw : RawMap) : Bool :=
  raw.side_defs.all (fun sd => sd.sector_idx < raw.sectors.length) &&
  raw.line_defs.all (lineInBounds raw.vertexes.length raw.side_defs.length)

/-- The element-wise conversion `link` performs on one side-def. -/
def rawSideToSide (sd : RawSideDef) : SideDef :=
  ⟨sd.sector_idx, sd.offset, sd.upper_texture, sd.middle_texture, sd.lower_texture⟩

/-- The element-wise conversion `link` performs on one line-def. -/
def rawLineToLine (ld : RawLineDef) : LineDef :=
  ⟨ld.from_idx, ld.to_idx, ld.left_side_idx, ld.right_side_idx, ld.flags,
   ld.special, ld.trigger_flags⟩

theorem linkSides_ok_of_bounds (n : Nat) (l : List RawSideDef)
    (h : ∀ sd ∈ l, sd.sector_idx < n) :
    ∀ i, linkSides n i l = .ok (l.map rawSideToSide) := by
  induction l with
  | nil => intro i; rfl
  | cons sd rest ih =>
    intro i
    have hsd : sd.sector_idx < n := h sd (List.mem_cons_self sd rest)
    have htail := ih (fun x hx => h x (List.mem_cons_of_mem sd hx)) (i + 1)
    simp only [linkSides, hsd, if_true, htail, List.map_cons]
    rfl

theorem linkRight_ok_of_bounds (nsides i : Nat) (o : Option Nat)
    (h : o.all (fun r => r < nsides) = true) :
    linkRight nsides i o = .ok o := by
  cases o with
  | none => rfl
  | some r =>
    simp only [Option.all_some, decide_eq_true_eq] at h
    simp [linkRight, h]

theorem linkLines_ok_of_bounds (nv ns : Nat) (l : List RawLineDef)
    (h : ∀ ld ∈ l, lineInBounds nv ns ld = true) :
    ∀ i, linkLines nv ns i l = .ok (l.map rawLineToLine) := by
  induction l with
  | nil => intro i; rfl
  | cons ld rest ih =>
    intro i
    have hld := h ld (List.mem_cons_self ld rest)
    simp only [lineInBounds, Bool.and_eq_true, decide_eq_true_eq] at hld
    obtain ⟨⟨⟨h1, h2⟩, h3⟩, h4⟩ := hld
    have htail := ih (fun x hx => h x (List.mem_cons_of_mem ld hx)) (i + 1)
    simp only [linkLines, h1, h2, h3, if_true,
      linkRight_ok_of_bounds ns i _ h4, htail, List.map_cons]
    rfl

theorem unlinkSides_roundtrip (n : Nat) (l : List RawSideDef)
    (h : ∀ sd ∈ l, sd.sector_idx < n) :
    ∀ i, unlinkSides n i (l.map rawSideToSide) = .ok l := by
  induction l with
  | nil => intro i; rfl
  | cons sd rest ih =>
    intro i
    have hsd : sd.sector_idx < n := h sd (List.mem_cons_self sd rest)
    have htail := ih (fun x hx => h x (List.mem_cons_of_mem sd hx)) (i + 1)
    simp only [List.map_cons, unlinkSides, rawSideToSide, hsd, if_true, htail]
    rfl

theorem unlinkRight_roundtrip (nsides i : Nat) (o : Option Nat)
    (h : o.all (fun r => r < nsides) = true) :
    unlinkRight nsides i o = .ok o := by
  cases o with
  | none => rfl
  | some r =>
    simp only [Option.all_some, decide_eq_true_eq] at h
    simp [unlinkRight, h]

theorem unlinkLines_roundtrip (nv ns : Nat) (l : List RawLineDef)
    (h : ∀ ld ∈ l, lineInBounds nv ns ld = true) :
    ∀ i, unlinkLines nv ns i (l.map rawLineToLine) = .ok l := by
  induction l with
  | nil => intro i; rfl
  | cons ld rest ih =>
    intro i
    have hld := h ld (List.mem_cons_self ld rest)
    simp only [lineInBounds, Bool.and_eq_true, decide_eq_true_eq] at hld
    obtain ⟨⟨⟨h1, h2⟩, h3⟩, h4⟩ := hld
    have htail := ih (fun x hx => h x (List.mem_cons_of_mem ld hx)) (i + 1)
    simp only [List.map_cons, unlinkLines, rawLineToLine, h1, h2, h3, if_true,
      unlinkRight_roundtrip ns i _ h4, htail]
    rfl

/-- C2 (amended). For every `RawMap` whose cross-reference indices are
all in bounds **and whose entity vectors each hold at most 65535
entries** (`unlink` refuses to re-index larger collections), `link`
succeeds and `unlink` of the result returns a `RawMap` equal to the
input, every entity vector in the same order. -/
theorem c2_link_unlink_roundtrip (raw : RawMap)
    (hb : raw.inBounds = true)
    (hv : raw.vertexes.length ≤ 65535) (hl : raw.line_defs.length ≤ 65535)
    (hs : raw.sectors.length ≤ 65535) (hsd : raw.side_defs.length ≤ 65535)
    (ht : raw.things.length ≤ 65535) :
    ∃ m, raw.link = .ok m ∧ m.unlink = .ok raw := by
  simp only [RawMap.inBounds, Bool.and_eq_true, List.all_eq_true,
    decide_eq_true_eq] at hb
  obtain ⟨hside, hline2⟩ := hb
  refine ⟨⟨raw.name, raw.vertexes, raw.line_defs.map rawLineToLine, raw.sectors,
           raw.side_defs.map rawSideToSide, raw.things⟩, ?_, ?_⟩
  · simp only [RawMap.link, linkSides_ok_of_bounds _ _ hside 0,
      linkLines_ok_of_bounds _ _ _ hline2 0]
    rfl
  · have h1 : ¬ raw.vertexes.length > 65535 := by omega
    have h2 : ¬ raw.line_defs.length > 65535 := by omega
    have h3 : ¬ raw.sectors.length > 65535 := by omega
    have h4 : ¬ raw.side_defs.length > 65535 := by omega
    have h5 : ¬ raw.things.length > 65535 := by omega
    have hsides := unlinkSides_roundtrip raw.sectors.length raw.side_defs hside 0
    have hlines := unlinkLines_roundtrip raw.vertexes.length raw.side_defs.length
      raw.line_defs hline2 0
    simp only [Map.unlink, h1, h2, h3, h4, h5, if_false, List.length_map,
      hsides, hlines]
    rfl

/-- Witness for C2: a one-of-each map with all references pointing at
index 0 satisfies the hypotheses and round-trips. -/
theorem c2_link_unlink_roundtrip_witness :
    ∃ m, (RawMap.link ⟨⟨List.replicate 8 0⟩,
      [⟨⟨.int 0, .int 0⟩⟩],
      [⟨0, 0, 0, none, lineDefFlagsDefault, ⟨0, []⟩, triggerFlagsDefault⟩],
      [⟨0, 0, ⟨List.replicate 8 0⟩, ⟨List.replicate 8 0⟩, 160, .None, 0⟩],
      [⟨0, ⟨0, 0⟩, ⟨List.replicate 8 0⟩, ⟨List.replicate 8 0⟩, ⟨List.replicate 8 0⟩⟩],
      [⟨⟨.int 0, .int 0⟩, 0, 0, 1, thingFlagsDefault, .None⟩]⟩) = .ok m ∧
      m.unlink = .ok ⟨⟨List.replicate 8 0⟩,
      [⟨⟨.int 0, .int 0⟩⟩],
      [⟨0, 0, 0, none, lineDefFlagsDefault, ⟨0, []⟩, triggerFlagsDefault⟩],
      [⟨0, 0, ⟨List.replicate 8 0⟩, ⟨List.replicate 8 0⟩, 160, .None, 0⟩],
      [⟨0, ⟨0, 0⟩, ⟨List.replicate 8 0⟩, ⟨List.replicate 8 0⟩, ⟨List.replicate 8 0⟩⟩],
      [⟨⟨.int 0, .int 0⟩, 0, 0, 1, thingFlagsDefault, .None⟩]⟩ := by
  exact c2_link_unlink_roundtrip _ (by decide) (by decide) (by decide)
    (by decide) (by decide) (by decide)

/-- C2 counterexample. The claim as stated (in-bounds indices alone
suffice) is false: a raw map with 65536 sectors and no cross-references
at all is vacuously in bounds and links fine, but `unlink` rejects the
linked map with `IndexTooLarge` because 65536 positions do not fit in a
`u16`, so `unlink (link raw)` is not `Ok raw`. -/
theorem c2_counterexample :
    (RawMap.inBounds ⟨⟨List.replicate 8 0⟩, [], [],
        List.replicate 65536 ⟨0, 0, ⟨List.replicate 8 0⟩, ⟨List.replicate 8 0⟩, 160, .None, 0⟩,
        [], []⟩) = true ∧
    (RawMap.link ⟨⟨List.replicate 8 0⟩, [], [],
        List.replicate 65536 ⟨0, 0, ⟨List.replicate 8 0⟩, ⟨List.replicate 8 0⟩, 160, .None, 0⟩,
        [], []⟩) = .ok ⟨⟨List.replicate 8 0⟩, [], [],
        List.replicate 65536 ⟨0, 0, ⟨List.replicate 8 0⟩, ⟨List.replicate 8 0⟩, 160, .None, 0⟩,
        [], []⟩ ∧
    (Map.unlink ⟨⟨List.replicate 8 0⟩, [], [],
        List.replicate 65536 ⟨0, 0, ⟨List.replicate 8 0⟩, ⟨List.replicate 8 0⟩, 160, .None, 0⟩,
        [], []⟩) = .error (.IndexTooLarge .Sector) := by
  refine ⟨rfl, rfl, ?_⟩
  have h : (List.replicate 65536
      (⟨0, 0, ⟨List.replicate 8 0⟩, ⟨List.replicate 8 0⟩, 160, .None, 0⟩ : Sector)).length
      = 65536 := List.length_replicate _ _
  rw [Map.unlink]
  simp only [List.length_nil, h]
  norm_num

/-- A `LinkError` is *witnessed* by a raw map when its five payload
fields accurately describe a dangling positional reference of that map:
the referrer kind and index locate an entity, the field name selects one
of that entity's reference fields, that field holds exactly the reported
index, and the index is out of range for the referee's vector. -/
def linkErrWitnessed (raw : RawMap) (e : LinkError) : Prop :=
  match e with
  | .IndexOutOfRange referrer i fld referee idx =>
    (referrer = .SideDef ∧ fld = "sector" ∧ referee = .Sector ∧
      ∃ h : i < raw.side_defs.length,
        (raw.side_defs.get ⟨i, h⟩).sector_idx = idx ∧ raw.sectors.length ≤ idx) ∨
    (referrer = .LineDef ∧ referee = .Vertex ∧
      ∃ h : i < raw.line_defs.length,
        ((fld = "from" ∧ (raw.line_defs.get ⟨i, h⟩).from_idx = idx) ∨
         (fld = "to" ∧ (raw.line_defs.get ⟨i, h⟩).to_idx = idx)) ∧
        raw.vertexes.length ≤ idx) ∨
    (referrer = .LineDef ∧ referee = .SideDef ∧
      ∃ h : i < raw.line_defs.length,
        ((fld = "left_side" ∧ (raw.line_defs.get ⟨i, h⟩).left_side_idx = idx) ∨
         (fld = "right_side" ∧ (raw.line_defs.get ⟨i, h⟩).right_side_idx = some idx)) ∧
        raw.side_defs.length ≤ idx)

/-- The error a single out-of-bounds line-def produces, relative to its
position and its field values. -/
def lineErrAt (nv ns pos : Nat) (ld : RawLineDef) (e : LinkError) : Prop :=
  (e = .IndexOutOfRange .LineDef pos "from" .Vertex ld.from_idx ∧ nv ≤ ld.from_idx) ∨
  (e = .IndexOutOfRange .LineDef pos "to" .Vertex ld.to_idx ∧ nv ≤ ld.to_idx) ∨
  (e = .IndexOutOfRange .LineDef pos "left_side" .SideDef ld.left_side_idx ∧
    ns ≤ ld.left_side_idx) ∨
  (∃ r, ld.right_side_idx = some r ∧
    e = .IndexOutOfRange .LineDef pos "right_side" .SideDef r ∧ ns ≤ r)

theorem linkSides_cases (n : Nat) (l : List RawSideDef) : ∀ i,
    (l.all (fun sd => decide (sd.sector_idx < n)) = true ∧
      linkSides n i l = .ok (l.map rawSideToSide)) ∨
    (∃ j idx, linkSides n i l =
        .error (.IndexOutOfRange .SideDef (i + j) "sector" .Sector idx) ∧
      ∃ h : j < l.length, (l.get ⟨j, h⟩).sector_idx = idx ∧ n ≤ idx) := by
  induction l with
  | nil => intro i; exact Or.inl ⟨rfl, rfl⟩
  | cons sd rest ih =>
    intro i
    by_cases hsd : sd.sector_idx < n
    · rcases ih (i + 1) with ⟨hall, hok⟩ | ⟨j, idx, herr, hj, hidx, hge⟩
      · refine Or.inl ⟨?_, ?_⟩
        · simp [List.all_cons, hsd, hall]
        · simp only [linkSides, hsd, if_true, hok, List.map_cons]
          rfl
      · refine Or.inr ⟨j + 1, idx, ?_, Nat.succ_lt_succ hj, hidx, hge⟩
        have harith : i + 1 + j = i + (j + 1) := by omega
        rw [harith] at herr
        simp only [linkSides, hsd, if_true, herr]
        rfl
    · refine Or.inr ⟨0, sd.sector_idx, ?_, Nat.succ_pos _, rfl, Nat.le_of_not_lt hsd⟩
      simp [linkSides, hsd]

theorem linkLines_cases (nv ns : Nat) (l : List RawLineDef) : ∀ i,
    (l.all (lineInBounds nv ns) = true ∧
      linkLines nv ns i l = .ok (l.map rawLineToLine)) ∨
    (∃ e, linkLines nv ns i l = .error e ∧
      ∃ j, ∃ hj : j < l.length, lineErrAt nv ns (i + j) (l.get ⟨j, hj⟩) e) := by
  induction l with
  | nil => intro i; exact Or.inl ⟨rfl, rfl⟩
  | cons ld rest ih =>
    intro i
    by_cases h1 : ld.from_idx < nv
    · by_cases h2 : ld.to_idx < nv
      · by_cases h3 : ld.left_side_idx < ns
        · -- the head's three direct indices are fine; look at right_side
          have hr : (∃ r, ld.right_side_idx = some r ∧ ¬ r < ns) ∨
              ld.right_side_idx.all (fun r => decide (r < ns)) = true := by
            cases ho : ld.right_side_idx with
            | none => exact Or.inr rfl
            | some r =>
              by_cases hrn : r < ns
              · exact Or.inr (by simp [Option.all_some, hrn])
              · exact Or.inl ⟨r, rfl, hrn⟩
          rcases hr with ⟨r, hro, hrn⟩ | hrok
          · refine Or.inr ⟨.IndexOutOfRange .LineDef i "right_side" .SideDef r, ?_,
              0, Nat.succ_pos _, ?_⟩
            · simp only [linkLines, h1, h2, h3, if_true, linkRight, hro]
              simp only [hrn, if_false]
              rfl
            · exact Or.inr (Or.inr (Or.inr ⟨r, by simpa using hro, by simp,
                Nat.le_of_not_lt hrn⟩))
          · rcases ih (i + 1) with ⟨hall, hok⟩ | ⟨e, herr, j, hj, hcase⟩
            · refine Or.inl ⟨?_, ?_⟩
              · simp only [List.all_cons, Bool.and_eq_true]
                exact ⟨by simp [lineInBounds, h1, h2, h3, hrok], hall⟩
              · simp only [linkLines, h1, h2, h3, if_true,
                  linkRight_ok_of_bounds ns i _ hrok, hok, List.map_cons]
                rfl
            · refine Or.inr ⟨e, ?_, j + 1, Nat.succ_lt_succ hj, ?_⟩
              · simp only [linkLines, h1, h2, h3, if_true,
                  linkRight_ok_of_bounds ns i _ hrok, herr]
                rfl
              · have harith : i + 1 + j = i + (j + 1) := by omega
                rw [harith] at hcase
                exact hcase
        · refine Or.inr ⟨.IndexOutOfRange .LineDef i "left_side" .SideDef ld.left_side_idx,
            ?_, 0, Nat.succ_pos _, ?_⟩
          · simp [linkLines, h1, h2, h3]
          · exact Or.inr (Or.inr (Or.inl ⟨by simp, Nat.le_of_not_lt h3⟩))
      · refine Or.inr ⟨.IndexOutOfRange .LineDef i "to" .Vertex ld.to_idx,
          ?_, 0, Nat.succ_pos _, ?_⟩
        · simp [linkLines, h1, h2]
        · exact Or.inr (Or.inl ⟨by simp, Nat.le_of_not_lt h2⟩)
    · refine Or.inr ⟨.IndexOutOfRange .LineDef i "from" .Vertex ld.from_idx,
        ?_, 0, Nat.succ_pos _, ?_⟩
      · simp [linkLines, h1]
      · exact Or.inl ⟨by simp, Nat.le_of_not_lt h1⟩

/-- The dangling-reference example from the specification: two sectors,
and a single side-def whose `sector` field is 7. -/
def danglingExample : RawMap :=
  ⟨⟨List.replicate 8 0⟩, [], [],
   [⟨0, 0, ⟨List.replicate 8 0⟩, ⟨List.replicate 8 0⟩, 160, .None, 0⟩,
    ⟨0, 0, ⟨List.replicate 8 0⟩, ⟨List.replicate 8 0⟩, 160, .None, 0⟩],
   [⟨7, ⟨0, 0⟩, ⟨[45, 0, 0, 0, 0, 0, 0, 0]⟩, ⟨[45, 0, 0, 0, 0, 0, 0, 0]⟩,
     ⟨[45, 0, 0, 0, 0, 0, 0, 0]⟩⟩], []⟩

/-- C6. For every `RawMap` with some out-of-bounds cross-reference,
`link` returns (totally — the Lean model is a total function, mirroring
the panic-free Rust code) an `IndexOutOfRange` error whose five fields
accurately identify a dangling reference of the input; and on the
specification's example — a side-def with `sector = 7` when only two
sectors exist — the error is exactly
`IndexOutOfRange SideDef 0 "sector" Sector 7`. -/
theorem c6_dangling_reference :
    (∀ raw : RawMap, raw.inBounds = false →
      ∃ e, raw.link = .error e ∧ linkErrWitnessed raw e) ∧
    RawMap.link danglingExample =
      .error (.IndexOutOfRange .SideDef 0 "sector" .Sector 7) := by
  constructor
  · intro raw h
    rcases linkSides_cases raw.sectors.length raw.side_defs 0 with
      ⟨hallS, hokS⟩ | ⟨j, idx, herr, hj, hidx, hge⟩
    · rcases linkLines_cases raw.vertexes.length raw.side_defs.length raw.line_defs 0 with
        ⟨hallL, hokL⟩ | ⟨e, herr, j, hj, hcase⟩
      · exfalso
        have : raw.inBounds = true := by
          simp only [RawMap.inBounds, hallS, hallL, Bool.and_self]
        rw [this] at h
        exact Bool.noConfusion h
      · refine ⟨e, ?_, ?_⟩
        · simp only [RawMap.link, hokS, herr]
          rfl
        · rw [Nat.zero_add] at hcase
          rcases hcase with ⟨he, hb⟩ | ⟨he, hb⟩ | ⟨he, hb⟩ | ⟨r, hro, he, hb⟩ <;> subst he
          · exact Or.inr (Or.inl ⟨rfl, rfl, hj, Or.inl ⟨rfl, rfl⟩, hb⟩)
          · exact Or.inr (Or.inl ⟨rfl, rfl, hj, Or.inr ⟨rfl, rfl⟩, hb⟩)
          · exact Or.inr (Or.inr ⟨rfl, rfl, hj, Or.inl ⟨rfl, rfl⟩, hb⟩)
          · exact Or.inr (Or.inr ⟨rfl, rfl, hj, Or.inr ⟨rfl, hro⟩, hb⟩)
    · rw [Nat.zero_add] at herr
      refine ⟨.IndexOutOfRange .SideDef j "sector" .Sector idx, ?_, ?_⟩
      · simp only [RawMap.link, herr]
        rfl
      · exact Or.inl ⟨rfl, rfl, rfl, hj, hidx, hge⟩
  · rfl

/-- Witness for C6: the hypothesis holds for `danglingExample`, whose
side-def index 7 exceeds its two sectors. -/
theorem c6_dangling_reference_witness :
    ∃ e, danglingExample.link = .error e ∧ linkErrWitnessed danglingExample e :=
  c6_dangling_reference.1 danglingExample (by decide)

/-- The action-mapping table rows of the `Special` enum of
`waddle/src/map/line_def.rs`, in declaration order: variant name, wide
`#[udmf(code)]` code, and number of declared `i16` fields.  The table is
split into consecutive slices (appended below in order) purely to keep
elaboration cheap; the concatenation is the one table. -/
def specialTableChunk0 : List SpecialEntry := [
  ⟨"None", 0, 0⟩,
  ⟨"PolyobjStartLine", 1, 3⟩,
  ⟨"PolyobjRotateLeft", 2, 3⟩,
  ⟨"PolyobjRotateRight", 3, 3⟩,
  ⟨"PolyobjMove", 4, 4⟩,
  ⟨"PolyobjExplicitLine", 5, 4⟩,
  ⟨"PolyobjMoveTimes8", 6, 4⟩,
  ⟨"PolyobjDoorSwing", 7, 4⟩,
  ⟨"PolyobjDoorSlide", 8, 5⟩,
  ⟨"LineHorizon", 9, 0⟩,
  ⟨"DoorClose", 10, 3⟩,
  ⟨"DoorOpen", 11, 3⟩,
  ⟨"DoorRaise", 12, 4⟩,
  ⟨"DoorRaiseLocked", 13, 5⟩,
  ⟨"DoorAnimated", 14, 4⟩,
  ⟨"Autosave", 15, 0⟩,
  ⟨"TransferWallLight", 16, 2⟩,
  ⟨"ThingRaise", 17, 2⟩,
  ⟨"StartConversation", 18, 2⟩,
  ⟨"ThingStop", 19, 1⟩,
  ⟨"FloorLowerByValue", 20, 3⟩,
  ⟨"FloorLowerToLowest", 21, 2⟩,
  ⟨"FloorLowerToNearest", 22, 2⟩,
  ⟨"FloorRaiseByValue", 23, 3⟩,
  ⟨"FloorRaiseToHighest", 24, 2⟩,
  ⟨"FloorRaiseToNearest", 25, 2⟩,
  ⟨"StairsBuildDown", 26, 5⟩,
  ⟨"StairsBuildUp", 27, 5⟩,
  ⟨"FloorRaiseAndCrush", 28, 4⟩,
  ⟨"PillarBuild", 29, 3⟩,
  ⟨"PillarOpen", 30, 4⟩,
  ⟨"StairsBuildDownSync", 31, 4⟩,
  ⟨"StairsBuildUpSync", 32, 4⟩,
  ⟨"ForceField", 33, 0⟩,
  ⟨"ClearForceField", 34, 1⟩,
  ⟨"FloorRaiseByValueTimes8", 35, 3⟩,
  ⟨"FloorLowerByValueTimes8", 36, 3⟩,
  ⟨"FloorMoveToValue", 37, 4⟩,
  ⟨"CeilingWaggle", 38, 5⟩,
  ⟨"TeleportZombieChanger", 39, 2⟩]

/-- Rows 40–79 of the action-mapping table. -/
def specialTableChunk1 : List SpecialEntry := [
  ⟨"CeilingLowerByValue", 40, 3⟩,
  ⟨"CeilingRaiseByValue", 41, 3⟩,
  ⟨"CeilingCrushAndRaise", 42, 4⟩,
  ⟨"CeilingLowerAndCrush", 43, 4⟩,
  ⟨"CeilingCrushStop", 44, 1⟩,
  ⟨"CeilingCrushRaiseAndStay", 45, 4⟩,
  ⟨"FloorCrushStop", 46, 1⟩,
  ⟨"CeilingMoveToValue", 47, 4⟩,
  ⟨"SectorAttach3dMidtex", 48, 3⟩,
  ⟨"GlassBreak", 49, 2⟩,
  ⟨"ExtraFloorLightOnly", 50, 2⟩,
  ⟨"SectorSetLink", 51, 4⟩,
  ⟨"ScrollWall", 52, 5⟩,
  ⟨"LineSetTextureOffset", 53, 5⟩,
  ⟨"SectorChangeFlags", 54, 3⟩,
  ⟨"LineSetBlocking", 55, 3⟩,
  ⟨"LineSetTextureScale", 56, 5⟩,
  ⟨"SectorSetPortal", 57, 5⟩,
  ⟨"SectorCopyScroller", 58, 2⟩,
  ⟨"PolyobjOrMoveToSpot", 59, 3⟩,
  ⟨"PlatPerpetualRaise", 60, 3⟩,
  ⟨"PlatStop", 61, 1⟩,
  ⟨"PlatDownWaitUpStay", 62, 3⟩,
  ⟨"PlatDownByValue", 63, 4⟩,
  ⟨"PlatUpWaitDownStay", 64, 3⟩,
  ⟨"PlatUpByValue", 65, 4⟩,
  ⟨"FloorLowerInstant", 66, 3⟩,
  ⟨"FloorRaiseInstant", 67, 3⟩,
  ⟨"FloorMoveToValueTimes8", 68, 4⟩,
  ⟨"CeilingMoveToValueTimes8", 69, 4⟩,
  ⟨"Teleport", 70, 3⟩,
  ⟨"TeleportNoFog", 71, 4⟩,
  ⟨"ThrustThing", 72, 4⟩,
  ⟨"DamageThing", 73, 2⟩,
  ⟨"TeleportNewMap", 74, 3⟩,
  ⟨"TeleportEndGame", 75, 0⟩,
  ⟨"TeleportOther", 76, 3⟩,
  ⟨"TeleportGroup", 77, 5⟩,
  ⟨"TeleportInSector", 78, 5⟩,
  ⟨"ThingSetConversation", 79, 2⟩]

/-- Rows 80–119 of the action-mapping table. -/
def specialTableChunk2 : List SpecialEntry := [
  ⟨"AcsExecute", 80, 5⟩,
  ⟨"AcsSuspend", 81, 2⟩,
  ⟨"AcsTerminate", 82, 2⟩,
  ⟨"AcsLockedExecute", 83, 5⟩,
  ⟨"AcsExecuteWithResult", 84, 5⟩,
  ⟨"AcsLockedExecuteDoor", 85, 5⟩,
  ⟨"PolyobjMoveToSpot", 86, 3⟩,
  ⟨"PolyobjStop", 87, 1⟩,
  ⟨"PolyobjMoveTo", 88, 4⟩,
  ⟨"PolyobjOrMoveTo", 89, 4⟩,
  ⟨"PolyobjOrRotateLeft", 90, 3⟩,
  ⟨"PolyobjOrRotateRight", 91, 3⟩,
  ⟨"PolyobjOrMove", 92, 4⟩,
  ⟨"PolyobjOrMoveTimes8", 93, 4⟩,
  ⟨"PillarBuildAndCrush", 94, 5⟩,
  ⟨"FloorAndCeilingLowerByValue", 95, 3⟩,
  ⟨"FloorAndCeilingRaiseByValue", 96, 3⟩,
  ⟨"CeilingLowerAndCrushDist", 97, 5⟩,
  ⟨"SectorSetTranslucent", 98, 4⟩,
  ⟨"FloorRaiseAndCrushDoom", 99, 4⟩,
  ⟨"ScrollTextureLeft", 100, 2⟩,
  ⟨"ScrollTextureRight", 101, 2⟩,
  ⟨"ScrollTextureUp", 102, 2⟩,
  ⟨"ScrollTextureDown", 103, 2⟩,
  ⟨"CeilingCrushAndRaiseSilentDist", 104, 5⟩,
  ⟨"DoorWaitRaise", 105, 5⟩,
  ⟨"DoorWaitClose", 106, 4⟩,
  ⟨"LineSetPortalTarget", 107, 2⟩,
  ⟨"LightForceLightning", 109, 1⟩,
  ⟨"LightRaiseByValue", 110, 2⟩,
  ⟨"LightLowerByValue", 111, 2⟩,
  ⟨"LightChangeToValue", 112, 2⟩,
  ⟨"LightFade", 113, 3⟩,
  ⟨"LightGlow", 114, 4⟩,
  ⟨"LightFlicker", 115, 3⟩,
  ⟨"LightStrobe", 116, 5⟩,
  ⟨"LightStop", 117, 1⟩,
  ⟨"PlaneCopy", 118, 5⟩,
  ⟨"ThingDamage", 119, 3⟩,
  ⟨"RadiusQuake", 120, 5⟩]

/-- Rows 120–159 of the action-mapping table. -/
def specialTableChunk3 : List SpecialEntry := [
  ⟨"LineSetIdentification", 121, 3⟩,
  ⟨"ThingMove", 125, 3⟩,
  ⟨"ThingSetSpecial", 127, 5⟩,
  ⟨"ThrustThingZ", 128, 4⟩,
  ⟨"UsePuzzleItem", 129, 5⟩,
  ⟨"ThingActivate", 130, 1⟩,
  ⟨"ThingDeactivate", 131, 1⟩,
  ⟨"ThingRemove", 132, 1⟩,
  ⟨"ThingDestroy", 133, 3⟩,
  ⟨"ThingProjectile", 134, 5⟩,
  ⟨"ThingSpawn", 135, 4⟩,
  ⟨"ThingProjectileGravity", 136, 5⟩,
  ⟨"ThingSpawnNoFog", 137, 4⟩,
  ⟨"FloorWaggle", 138, 5⟩,
  ⟨"ThingSpawnFacing", 139, 4⟩,
  ⟨"SectorChangeSound", 140, 2⟩,
  ⟨"PlayerSetTeam", 145, 1⟩,
  ⟨"TeamScore", 152, 2⟩,
  ⟨"TeamGivePoints", 153, 3⟩,
  ⟨"TeleportNoStop", 154, 3⟩,
  ⟨"LineSetPortal", 156, 4⟩,
  ⟨"SetGlobalFogParameter", 157, 2⟩,
  ⟨"FsExecute", 158, 4⟩,
  ⟨"SectorSetPlaneReflection", 159, 3⟩,
  ⟨"SectorSet3dFloor", 160, 5⟩,
  ⟨"SectorSetContents", 161, 3⟩,
  ⟨"CeilingCrushAndRaiseDist", 168, 5⟩,
  ⟨"GenericCrusher2", 169, 5⟩,
  ⟨"SectorSetCeilingScale2", 170, 3⟩,
  ⟨"SectorSetFloorScale2", 171, 3⟩,
  ⟨"PlatUpNearestWaitDownStay", 172, 3⟩,
  ⟨"NoiseAlert", 173, 2⟩,
  ⟨"SendToCommunicator", 174, 4⟩,
  ⟨"ThingProjectileIntercept", 175, 5⟩,
  ⟨"ThingChangeTid", 176, 2⟩,
  ⟨"ThingHate", 177, 3⟩,
  ⟨"ThingProjectileAimed", 178, 5⟩,
  ⟨"ChangeSkill", 179, 1⟩,
  ⟨"ThingSetTranslation", 180, 2⟩,
  ⟨"PlaneAlign", 181, 3⟩]

/-- Rows 160–199 of the action-mapping table. -/
def specialTableChunk4 : List SpecialEntry := [
  ⟨"LineMirror", 182, 0⟩,
  ⟨"LineAlignCeiling", 183, 2⟩,
  ⟨"LineAlignFloor", 184, 2⟩,
  ⟨"SectorSetRotation", 185, 3⟩,
  ⟨"SectorSetCeilingPanning", 186, 5⟩,
  ⟨"SectorSetFloorPanning", 187, 5⟩,
  ⟨"SectorSetCeilingScale", 188, 5⟩,
  ⟨"SectorSetFloorScale", 189, 5⟩,
  ⟨"StaticInit", 190, 4⟩,
  ⟨"SetPlayerProperty", 191, 3⟩,
  ⟨"CeilingLowerToHighestFloor", 192, 2⟩,
  ⟨"CeilingLowerInstant", 193, 3⟩,
  ⟨"CeilingRaiseInstant", 194, 3⟩,
  ⟨"CeilingCrushRaiseAndStayA", 195, 5⟩,
  ⟨"CeilingCrushAndRaiseA", 196, 5⟩,
  ⟨"CeilingCrushAndRaiseSilentA", 197, 5⟩,
  ⟨"CeilingRaiseByValueTimes8", 198, 3⟩,
  ⟨"CeilingLowerByValueTimes8", 199, 3⟩,
  ⟨"GenericFloor", 200, 5⟩,
  ⟨"GenericCeiling", 201, 5⟩,
  ⟨"GenericDoor", 202, 5⟩,
  ⟨"GenericLift", 203, 5⟩,
  ⟨"GenericStairs", 204, 5⟩,
  ⟨"GenericCrusher", 205, 5⟩,
  ⟨"PlatDownWaitUpStayLip", 206, 5⟩,
  ⟨"PlatPerpetualRaiseLip", 207, 4⟩,
  ⟨"TranslucentLine", 208, 4⟩,
  ⟨"TransferHeights", 209, 2⟩,
  ⟨"TransferFloorLight", 210, 1⟩,
  ⟨"TransferCeilingLight", 211, 1⟩,
  ⟨"SectorSetColor", 212, 5⟩,
  ⟨"SectorSetFade", 213, 4⟩,
  ⟨"SectorSetDamage", 214, 5⟩,
  ⟨"TeleportLine", 215, 3⟩,
  ⟨"SectorSetGravity", 216, 3⟩,
  ⟨"StairsBuildUpDoom", 217, 5⟩,
  ⟨"SectorSetWind", 218, 4⟩,
  ⟨"SectorSetFriction", 219, 2⟩,
  ⟨"SectorSetCurrent", 220, 4⟩,
  ⟨"ScrollTextureBoth", 221, 5⟩]

/-- Rows 200–239 of the action-mapping table. -/
def specialTableChunk5 : List SpecialEntry := [
  ⟨"ScrollTextureModel", 222, 2⟩,
  ⟨"ScrollFloor", 223, 5⟩,
  ⟨"ScrollCeiling", 224, 5⟩,
  ⟨"ScrollTextureOffsets", 225, 1⟩,
  ⟨"AcsExecuteAlways", 226, 5⟩,
  ⟨"PointPushSetForce", 227, 4⟩,
  ⟨"PlatRaiseAndStayTx0", 228, 3⟩,
  ⟨"ThingSetGoal", 229, 4⟩,
  ⟨"PlatUpByValueStayTx", 230, 3⟩,
  ⟨"PlatToggleCeiling", 231, 1⟩,
  ⟨"LightStrobeDoom", 232, 3⟩,
  ⟨"LightMinNeighbor", 233, 1⟩,
  ⟨"LightMaxNeighbor", 234, 1⟩,
  ⟨"FloorTransferTrigger", 235, 1⟩,
  ⟨"FloorTransferNumeric", 236, 1⟩,
  ⟨"ChangeCamera", 237, 3⟩,
  ⟨"FloorRaiseToLowestCeiling", 238, 2⟩,
  ⟨"FloorRaiseByValueTxTy", 239, 3⟩,
  ⟨"FloorRaiseByTexture", 240, 2⟩,
  ⟨"FloorLowerToLowestTxTy", 241, 2⟩,
  ⟨"FloorLowerToHighest", 242, 4⟩,
  ⟨"ExitNormal", 243, 1⟩,
  ⟨"ExitSecret", 244, 1⟩,
  ⟨"ElevatorRaiseToNearest", 245, 2⟩,
  ⟨"ElevatorMoveToFloor", 246, 2⟩,
  ⟨"ElevatorLowerToNearest", 247, 2⟩,
  ⟨"HealThing", 248, 2⟩,
  ⟨"DoorCloseWaitOpen", 249, 4⟩,
  ⟨"FloorDonut", 250, 3⟩,
  ⟨"FloorAndCeilingLowerRaise", 251, 4⟩,
  ⟨"CeilingRaiseToNearest", 252, 2⟩,
  ⟨"CeilingLowerToLowest", 253, 2⟩,
  ⟨"CeilingLowerToFloor", 254, 2⟩,
  ⟨"CeilingCrushRaiseAndStaySilA", 255, 5⟩,
  ⟨"FloorLowerToHighestEE", 256, 3⟩,
  ⟨"FloorRaiseToLowest", 257, 3⟩,
  ⟨"FloorLowerToLowestCeiling", 258, 3⟩,
  ⟨"FloorRaiseToCeiling", 259, 5⟩,
  ⟨"FloorToCeilingInstant", 260, 4⟩,
  ⟨"FloorLowerByTexture", 261, 4⟩]

/-- Rows 240–258 of the action-mapping table. -/
def specialTableChunk6 : List SpecialEntry := [
  ⟨"CeilingRaiseToHighest", 262, 3⟩,
  ⟨"CeilingToHighestInstant", 263, 3⟩,
  ⟨"CeilingLowerToNearest", 264, 4⟩,
  ⟨"CeilingRaiseToLowest", 265, 3⟩,
  ⟨"CeilingRaiseToHighestFloor", 266, 3⟩,
  ⟨"CeilingToFloorInstant", 267, 4⟩,
  ⟨"CeilingRaiseByTexture", 268, 3⟩,
  ⟨"CeilingLowerByTexture", 269, 4⟩,
  ⟨"StairsBuildDownDoom", 270, 5⟩,
  ⟨"StairsBuildUpDoomSync", 271, 4⟩,
  ⟨"StairsBuildDownDoomSync", 272, 4⟩,
  ⟨"StairsBuildUpDoomCrush", 273, 5⟩,
  ⟨"DoorAnmatedClose", 274, 2⟩,
  ⟨"FloorStop", 275, 1⟩,
  ⟨"CeilingStop", 276, 1⟩,
  ⟨"SectorSetFloorGlow", 277, 5⟩,
  ⟨"SectorSetCeilingGlow", 278, 5⟩,
  ⟨"FloorMoveToValueAndCrush", 279, 5⟩,
  ⟨"CeilingMoveToValueAndCrush", 280, 5⟩]

/-- The full action-mapping table: all 259 rows in declaration order. -/
def specialTable : List SpecialEntry :=
  specialTableChunk0 ++ specialTableChunk1 ++ specialTableChunk2 ++
  specialTableChunk3 ++ specialTableChunk4 ++ specialTableChunk5 ++
  specialTableChunk6

/-- Executable strict-ascending check on a list of codes. -/
def codesStrictSorted : List Int → Bool
  | [] => true
  | [_] => true
  | a :: b :: rest => a < b && codesStrictSorted (b :: rest)

/-- `From<Special> for UdmfSpecial` (generated by `gen_into_udmf_tokens`):
the variant's wide code, and its field values padded with `0` to the five
argument slots (`pad_using(5, 0)`). -/
def wide_encode (s : SpecialVal) : UdmfSpecial :=
  let e := specialTable.getD s.variant ⟨"", 0, 0⟩
  ⟨e.code, s.args ++ List.replicate (5 - e.nargs) 0⟩

/-- The generated `match udmf.value` of `TryFrom<UdmfSpecial> for Special`
(`gen_from_udmf_tokens`), one arm per table row in declaration order:
on the matching code, every argument slot at and beyond the variant's
field count must be `0` (else `Err(udmf)`), and the leading slots become
the variant's fields; the fallthrough arm is `Err(udmf)`.  The `Nat`
argument tracks the arm's position so the result can name the variant. -/
def decodeFrom : Nat → List SpecialEntry → UdmfSpecial → Except UdmfSpecial SpecialVal
  | _, [], u => .error u
  | i, e :: rest, u =>
    if u.value = e.code then
      if (u.args.drop e.nargs).all (fun a => a == 0) then
        .ok ⟨i, u.args.take e.nargs⟩
      else .error u
    else decodeFrom (i + 1) rest u

/-- `TryFrom<UdmfSpecial> for Special`. -/
def wide_decode (u : UdmfSpecial) : Except UdmfSpecial SpecialVal :=
  decodeFrom 0 specialTable u

/-- Well-formedness of a canonical `Special` value: the variant exists
and the field-value list has exactly the variant's declared arity (the
Rust type system guarantees both). -/
def SpecialVal.wf (s : SpecialVal) : Prop :=
  s.variant < specialTable.length ∧
  s.args.length = (specialTable.getD s.variant ⟨"", 0, 0⟩).nargs

instance (s : SpecialVal) : Decidable s.wf := by
  unfold SpecialVal.wf; infer_instance

theorem chain_lt_of_codesStrictSorted (l : List Int) :
    codesStrictSorted l = true → List.Chain' (· < ·) l := by
  induction l with
  | nil => intro _; exact List.chain'_nil
  | cons a tl ih =>
    intro h
    cases tl with
    | nil => exact List.chain'_singleton _
    | cons b rest =>
      simp only [codesStrictSorted, Bool.and_eq_true, decide_eq_true_eq] at h
      exact (List.chain'_cons).mpr ⟨h.1, ih h.2⟩

set_option maxRecDepth 16000 in
/-- The wide codes are strictly increasing in declaration order (checked
over the whole static table). -/
theorem specialTable_codes_sorted :
    List.Chain' (· < ·) (specialTable.map (fun e => e.code)) :=
  chain_lt_of_codesStrictSorted _ (by decide)

theorem decodeFrom_append (u : UdmfSpecial) (pre post : List SpecialEntry)
    (h : ∀ e ∈ pre, u.value ≠ e.code) :
    ∀ i, decodeFrom i (pre ++ post) u = decodeFrom (i + pre.length) post u := by
  induction pre with
  | nil => intro i; rfl
  | cons e rest ih =>
    intro i
    have hne : ¬ u.value = e.code := h e (List.mem_cons_self e rest)
    have htail := ih (fun x hx => h x (List.mem_cons_of_mem e hx)) (i + 1)
    have harith : i + 1 + rest.length = i + (e :: rest).length := by
      simp [List.length_cons]; omega
    rw [List.cons_append]
    simp only [decodeFrom, hne, if_false, htail, harith]

/-- Strict monotonicity of the codes: every table row before row `v` has
a code different from row `v`'s. -/
theorem take_code_ne (v : Nat) (hv : v < specialTable.length) :
    ∀ e ∈ specialTable.take v, (specialTable.get ⟨v, hv⟩).code ≠ e.code := by
  intro e he
  have hp : (specialTable.map (fun e => e.code)).Pairwise (· < ·) :=
    List.chain'_iff_pairwise.mp specialTable_codes_sorted
  obtain ⟨j, hj, rfl⟩ := List.mem_take_iff_getElem.mp he
  have hjv : j < v := lt_min_iff.mp hj |>.1
  have hjl : j < specialTable.length := lt_of_lt_of_le hj (min_le_right _ _)
  have hlt : (specialTable.get ⟨j, hjl⟩).code < (specialTable.get ⟨v, hv⟩).code := by
    have := List.pairwise_iff_get.mp hp
      ⟨j, by simpa using hjl⟩ ⟨v, by simpa using hv⟩ (by simpa using hjv)
    simpa using this
  have hgj : specialTable[j] = specialTable.get ⟨j, hjl⟩ := rfl
  rw [hgj]
  exact (ne_of_gt hlt)

/-- C3. For every well-formed canonical `Special` value, encoding it to
its UDMF wide form (code plus five-slot argument array, unused trailing
slots zero-filled) and decoding that wide form yields `Ok` of the same
value. -/
theorem c3_wide_roundtrip (s : SpecialVal) (h : s.wf) :
    wide_decode (wide_encode s) = .ok s := by
  obtain ⟨hv, hlen⟩ := h
  have hget : specialTable.getD s.variant ⟨"", 0, 0⟩ = specialTable.get ⟨s.variant, hv⟩ :=
    List.getD_eq_get specialTable ⟨"", 0, 0⟩ hv
  have hsplit := (List.take_append_drop s.variant specialTable).symm
  have hdrop : specialTable.drop s.variant =
      specialTable.get ⟨s.variant, hv⟩ :: specialTable.drop (s.variant + 1) :=
    (@List.cons_get_drop_succ SpecialEntry specialTable ⟨s.variant, hv⟩).symm
  have hvalue : (wide_encode s).value = (specialTable.get ⟨s.variant, hv⟩).code := by
    show (specialTable.getD s.variant ⟨"", 0, 0⟩).code = _
    rw [hget]
  have hargs : (wide_encode s).args =
      s.args ++ List.replicate (5 - (specialTable.get ⟨s.variant, hv⟩).nargs) 0 := by
    show s.args ++ List.replicate
        (5 - (specialTable.getD s.variant ⟨"", 0, 0⟩).nargs) 0 = _
    rw [hget]
  have hne : ∀ e ∈ specialTable.take s.variant, (wide_encode s).value ≠ e.code := by
    rw [hvalue]; exact take_code_ne s.variant hv
  have hlen2 : (specialTable.take s.variant).length = s.variant :=
    List.length_take_of_le (le_of_lt hv)
  have hlen3 : s.args.length = (specialTable.get ⟨s.variant, hv⟩).nargs := by
    rw [hlen, hget]
  rw [wide_decode]
  conv_lhs => rw [hsplit, hdrop]
  rw [decodeFrom_append _ _ _ hne 0, hlen2, Nat.zero_add]
  simp only [decodeFrom]
  rw [if_pos hvalue, hargs, ← hlen3, List.drop_left, List.take_left]
  have hall : ((List.replicate (5 - s.args.length) (0 : Int)).all
      (fun a => a == 0)) = true := by
    simp [List.all_eq_true, List.mem_replicate]
  rw [if_pos hall]

set_option maxRecDepth 16000 in
/-- Witness for C3: the `DoorClose` variant (code 10, three fields). -/
theorem c3_wide_roundtrip_witness :
    wide_decode (wide_encode ⟨10, [3, 16, 0]⟩) = .ok ⟨10, [3, 16, 0]⟩ :=
  c3_wide_roundtrip ⟨10, [3, 16, 0]⟩ (by decide)

theorem decodeFrom_ok_shape (u : UdmfSpecial) :
    ∀ (l : List SpecialEntry) (i : Nat) (s : SpecialVal),
      decodeFrom i l u = .ok s →
      ∃ j, ∃ hj : j < l.length,
        s.variant = i + j ∧ u.value = (l.get ⟨j, hj⟩).code ∧
        (u.args.drop (l.get ⟨j, hj⟩).nargs).all (fun a => a == 0) = true ∧
        s.args = u.args.take (l.get ⟨j, hj⟩).nargs := by
  intro l
  induction l with
  | nil => intro i s h; exact absurd h (by simp [decodeFrom])
  | cons e rest ih =>
    intro i s h
    by_cases hc : u.value = e.code
    · by_cases hz : (u.args.drop e.nargs).all (fun a => a == 0) = true
      · simp only [decodeFrom, hc, if_true, hz, Except.ok.injEq] at h
        subst h
        exact ⟨0, Nat.succ_pos _, by simp, hc, hz, rfl⟩
      · exfalso
        simp only [decodeFrom, hc, if_true, hz, if_false] at h
        exact absurd h (by simp)
    · simp only [decodeFrom, hc, if_false] at h
      obtain ⟨j, hj, h1, h2, h3, h4⟩ := ih (i + 1) s h
      exact ⟨j + 1, Nat.succ_lt_succ hj, by omega, h2, h3, h4⟩

/-- C7. Decoding a wide code with a five-slot argument array succeeds
only when the code matches some table row and every argument slot at and
beyond the row's field count is zero (in which case the decoded value is
exactly that variant with the leading slots); and whenever the code
matches a row but some slot beyond its field count is nonzero, decoding
returns `Err` of the rejected input rather than ignoring the extras. -/
theorem c7_wide_decode_strict (u : UdmfSpecial) (hlen : u.args.length = 5) :
    (∀ s, wide_decode u = .ok s →
      ∃ hv : s.variant < specialTable.length,
        u.value = (specialTable.get ⟨s.variant, hv⟩).code ∧
        (u.args.drop (specialTable.get ⟨s.variant, hv⟩).nargs).all
          (fun a => a == 0) = true ∧
        s.args = u.args.take (specialTable.get ⟨s.variant, hv⟩).nargs) ∧
    (∀ v, ∀ hv : v < specialTable.length,
      u.value = (specialTable.get ⟨v, hv⟩).code →
      (u.args.drop (specialTable.get ⟨v, hv⟩).nargs).all (fun a => a == 0) = false →
      wide_decode u = .error u) := by
  constructor
  · intro s h
    obtain ⟨j, hj, h1, h2, h3, h4⟩ := decodeFrom_ok_shape u specialTable 0 s h
    have hsv : s.variant = j := by omega
    subst hsv
    exact ⟨hj, h2, h3, h4⟩
  · intro v hv hcode hnz
    have hsplit := (List.take_append_drop v specialTable).symm
    have hdrop : specialTable.drop v =
        specialTable.get ⟨v, hv⟩ :: specialTable.drop (v + 1) :=
      (@List.cons_get_drop_succ SpecialEntry specialTable ⟨v, hv⟩).symm
    have hne : ∀ e ∈ specialTable.take v, u.value ≠ e.code := by
      rw [hcode]; exact take_code_ne v hv
    have hlen2 : (specialTable.take v).length = v :=
      List.length_take_of_le (le_of_lt hv)
    rw [wide_decode]
    conv_lhs => rw [hsplit, hdrop]
    rw [decodeFrom_append _ _ _ hne 0, hlen2, Nat.zero_add]
    simp only [decodeFrom, hcode, if_true, hnz, Bool.false_eq_true, if_false]

set_option maxRecDepth 16000 in
/-- Witness for C7: code 9 is `LineHorizon` (zero fields), so
`(9, [1,0,0,0,0])` must be rejected even though slot 0 could have been
ignored. -/
theorem c7_wide_decode_strict_witness :
    wide_decode ⟨9, [1, 0, 0, 0, 0]⟩ = .error ⟨9, [1, 0, 0, 0, 0]⟩ :=
  (c7_wide_decode_strict ⟨9, [1, 0, 0, 0, 0]⟩ rfl).2 9 (by decide) (by decide) (by decide)

/-! ## `src/map/udmf.rs`: AST values, spans, and the block compiler -/

/-- A half-open byte range (`Range<usize>`); `end` is a Lean keyword so
the field is `stop`. -/
structure Span where
  start : Nat
  stop : Nat
deriving DecidableEq, Repr

/-- `Value` (`src/map/udmf.rs`): int, float, string or bool literal.
String payloads are UTF-8 byte lists, float payloads are `ℚ`. -/
inductive Value where
  | int (i : Int)
  | float (q : ℚ)
  | str (s : List Nat)
  | bool (b : Bool)
deriving DecidableEq, Repr

/-- `ValueType` (`src/map/udmf.rs`). -/
inductive ValueType where
  | int
  | float
  | str
  | bool
deriving DecidableEq, Repr

/-- `ast::Spanned<T>`. -/
structure Spanned (α : Type) where
  item : α
  span : Span
deriving DecidableEq, Repr

/-- `ast::AssignmentExpr`; `Identifier` is a newtype over `String` and is
modelled as `String` directly. -/
structure AssignmentExpr where
  identifier : Spanned String
  value : Spanned Value
deriving DecidableEq, Repr

/-- `ast::Block`. -/
structure Block where
  identifier : Spanned String
  assignments : List (Spanned AssignmentExpr)
deriving DecidableEq, Repr

/-- `CompileError` (`src/map/udmf.rs`), payloads as in the source
(`ValidValueTypes`/`ValidIdentifiers`/`MissingAssignments` are lists;
`OutOfRange` carries the inclusive `i32` range as two bounds). -/
inductive CompileError where
  | String8 (error : IntoString8Error) (span : Span)
  | MultipleAssignment (identifier : String) (previous_span : Span) (span : Span)
  | InvalidAssignmentType (identifier : String) (value : Value)
      (expected : List ValueType) (identifier_span : Span) (value_span : Span)
  | OutOfRange (identifier : String) (lo hi : Int) (span : Span)
  | InvalidAssignment (identifier : String) (valid : List String) (span : Span)
  | InvalidBlock (identifier : String) (valid : List String) (span : Span)
  | MissingAssignments (missing : List String) (span : Span)
  | LineDefSpecial (value : Int) (special_span : Span)
      (arg0_span arg1_span arg2_span arg3_span arg4_span : Option (Nat × Nat))
  | SectorSpecial (value : Int) (span : Span)
deriving DecidableEq, Repr

/-- `expect_int_value`. -/
def expect_int_value (a : Spanned AssignmentExpr) : Except CompileError Int :=
  match a.item.value.item with
  | .int v => .ok v
  | _ => .error (.InvalidAssignmentType a.item.identifier.item a.item.value.item
      [.int] a.item.identifier.span a.item.value.span)

/-- `expect_i16_value`: an int literal that fits `i16`. -/
def expect_i16_value (a : Spanned AssignmentExpr) : Except CompileError Int := do
  let n ← expect_int_value a
  if -32768 ≤ n ∧ n ≤ 32767 then .ok n
  else .error (.OutOfRange a.item.identifier.item (-32768) 32767 a.item.value.span)

/-- `expect_u8_value`: an int literal that fits `u8`. -/
def expect_u8_value (a : Spanned AssignmentExpr) : Except CompileError Nat := do
  let n ← expect_int_value a
  if 0 ≤ n ∧ n ≤ 255 then .ok n.toNat
  else .error (.OutOfRange a.item.identifier.item 0 255 a.item.value.span)

/-- `expect_str8_value`: a string literal convertible to `String8`. -/
def expect_str8_value (a : Spanned AssignmentExpr) : Except CompileError String8 :=
  match a.item.value.item with
  | .str s =>
    match String8.from_bytes s with
    | .ok v => .ok v
    | .error e => .error (.String8 e a.item.value.span)
  | _ => .error (.InvalidAssignmentType a.item.identifier.item a.item.value.item
      [.str] a.item.identifier.span a.item.value.span)

/-- `expect_number_value`: an int or float literal, passed through as a
`Number` unchanged (no coercion, no fractional-part test). -/
def expect_number_value (a : Spanned AssignmentExpr) : Except CompileError Number :=
  match a.item.value.item with
  | .int i => .ok (.int i)
  | .float q => .ok (.float q)
  | _ => .error (.InvalidAssignmentType a.item.identifier.item a.item.value.item
      [.int, .float] a.item.identifier.span a.item.value.span)

/-- `assign_once`: a previously-filled slot is a `MultipleAssignment`
error (checked *before* the value is examined); otherwise the expectation
runs and the slot is filled with the value and the assignment's span. -/
def assign_once {α : Type} (opt : Option (α × Span))
    (expect : Spanned AssignmentExpr → Except CompileError α)
    (a : Spanned AssignmentExpr) : Except CompileError (Option (α × Span)) :=
  match opt with
  | some (_, previous_span) =>
    .error (.MultipleAssignment a.item.identifier.item previous_span a.span)
  | none => do
    let value ← expect a
    .ok (some (value, a.span))

/-- Accumulator of `<UdmfBlock for Sector>::compile`: one option slot per
schema field. -/
structure SectorAcc where
  floor_height : Option (Int × Span)
  ceiling_height : Option (Int × Span)
  floor_flat : Option (String8 × Span)
  ceiling_flat : Option (String8 × Span)
  light_level : Option (Nat × Span)
  special : Option (Int × Span)
  tag : Option (Int × Span)
deriving DecidableEq, Repr

/-- The assignment loop of `<UdmfBlock for Sector>::compile`, dispatching
on the identifier as the source `match` does (`consts::sector`). -/
def sectorCompileLoop : List (Spanned AssignmentExpr) → SectorAcc →
    Except CompileError SectorAcc
  | [], acc => .ok acc
  | a :: rest, acc =>
    match a.item.identifier.item with
    | "heightfloor" => do
      let v ← assign_once acc.floor_height expect_i16_value a
      sectorCompileLoop rest { acc with floor_height := v }
    | "heightceiling" => do
      let v ← assign_once acc.ceiling_height expect_i16_value a
      sectorCompileLoop rest { acc with ceiling_height := v }
    | "texturefloor" => do
      let v ← assign_once acc.floor_flat expect_str8_value a
      sectorCompileLoop rest { acc with floor_flat := v }
    | "textureceiling" => do
      let v ← assign_once acc.ceiling_flat expect_str8_value a
      sectorCompileLoop rest { acc with ceiling_flat := v }
    | "lightlevel" => do
      let v ← assign_once acc.light_level expect_u8_value a
      sectorCompileLoop rest { acc with light_level := v }
    | "special" => do
      let v ← assign_once acc.special expect_i16_value a
      sectorCompileLoop rest { acc with special := v }
    | "id" => do
      let v ← assign_once acc.tag expect_i16_value a
      sectorCompileLoop rest { acc with tag := v }
    | _ => .error (.InvalidAssignment a.item.identifier.item
        ["heightfloor", "heightceiling", "texturefloor", "textureceiling",
         "lightlevel", "id", "special"] a.span)

/-- `<UdmfBlock for Sector>::compile`: run the loop, report missing
required flats, resolve the `special` code through
`TryFrom<i16> for sector::Special`, then fill defaults (light level 160,
zeros elsewhere).  The unwraps of the two (present) flats are modelled
with an unreachable all-NUL default. -/
def Sector.compile (block : Block) : Except CompileError Sector := do
  let acc ← sectorCompileLoop block.assignments ⟨none, none, none, none, none, none, none⟩
  let missing : List String :=
    (if acc.floor_flat.isNone then ["texturefloor"] else []) ++
    (if acc.ceiling_flat.isNone then ["textureceiling"] else [])
  if missing.isEmpty then do
    let special ← match acc.special with
      | some (value, span) =>
        match sectorSpecialTryFrom value with
        | .ok s => Except.ok s
        | .error _ => Except.error (.SectorSpecial value span)
      | none => Except.ok SectorSpecial.None
    .ok ⟨(acc.floor_height.map Prod.fst).getD 0,
         (acc.ceiling_height.map Prod.fst).getD 0,
         (acc.floor_flat.map Prod.fst).getD ⟨List.replicate 8 0⟩,
         (acc.ceiling_flat.map Prod.fst).getD ⟨List.replicate 8 0⟩,
         (acc.light_level.map Prod.fst).getD 160,
         special,
         (acc.tag.map Prod.fst).getD 0⟩
  else .error (.MissingAssignments missing block.identifier.span)

/-- Accumulator of `<UdmfBlock for Vertex>::compile`. -/
structure VertexAcc where
  x : Option (Number × Span)
  y : Option (Number × Span)
deriving DecidableEq, Repr

/-- The assignment loop of `<UdmfBlock for Vertex>::compile`. -/
def vertexCompileLoop : List (Spanned AssignmentExpr) → VertexAcc →
    Except CompileError VertexAcc
  | [], acc => .ok acc
  | a :: rest, acc =>
    match a.item.identifier.item with
    | "x" => do
      let v ← assign_once acc.x expect_number_value a
      vertexCompileLoop rest { acc with x := v }
    | "y" => do
      let v ← assign_once acc.y expect_number_value a
      vertexCompileLoop rest { acc with y := v }
    | _ => .error (.InvalidAssignment a.item.identifier.item ["x", "y"] a.span)

/-- `<UdmfBlock for Vertex>::compile`: both `x` and `y` are required; the
stored position is the `Number` exactly as the literal had it. -/
def Vertex.compile (block : Block) : Except CompileError Vertex := do
  let acc ← vertexCompileLoop block.assignments ⟨none, none⟩
  let missing : List String :=
    (if acc.x.isNone then ["x"] else []) ++ (if acc.y.isNone then ["y"] else [])
  if missing.isEmpty then
    .ok ⟨⟨(acc.x.map Prod.fst).getD (.int 0), (acc.y.map Prod.fst).getD (.int 0)⟩⟩
  else .error (.MissingAssignments missing block.identifier.span)

/-- Helper to build a spanned assignment AST node. -/
def mkAssign (name : String) (v : Value) (idSpan vSpan aSpan : Span) :
    Spanned AssignmentExpr :=
  ⟨⟨⟨name, idSpan⟩, ⟨v, vSpan⟩⟩, aSpan⟩

/-- A `vertex` block `{ x = <v>; y = 0; }` with fixed spans. -/
def vertexNumBlock (v : Value) : Block :=
  ⟨⟨"vertex", ⟨0, 6⟩⟩,
   [mkAssign "x" v ⟨9, 10⟩ ⟨11, 12⟩ ⟨9, 13⟩,
    mkAssign "y" (.int 0) ⟨14, 15⟩ ⟨16, 17⟩ ⟨14, 18⟩]⟩

/-- C5 counterexample.  The claim says `x=5.0;` compiles to the integer 5
and `x=5.5;` fails with a type/range error.  In the code
`expect_number_value` passes any float literal through unchanged: `x=5.0`
compiles to `Float(5.0)` (which is not `Int(5)`), and `x=5.5` compiles
successfully to `Float(5.5)` instead of failing. -/
theorem c5_counterexample :
    Vertex.compile (vertexNumBlock (.float 5)) = .ok ⟨⟨.float 5, .int 0⟩⟩ ∧
    Number.float 5 ≠ Number.int 5 ∧
    Vertex.compile (vertexNumBlock (.float (11 / 2))) =
      .ok ⟨⟨.float (11 / 2), .int 0⟩⟩ := by
  refine ⟨rfl, by decide, rfl⟩

/-- C5 (amended).  Compiling `x=5;` yields the integer 5; compiling any
float literal `x=<q>;` succeeds and stores `Float(q)` unchanged — there
is no int/float coercion and no fractional-part check in the vertex
compiler. -/
theorem c5_vertex_number_passthrough :
    Vertex.compile (vertexNumBlock (.int 5)) = .ok ⟨⟨.int 5, .int 0⟩⟩ ∧
    (∀ q : ℚ, Vertex.compile (vertexNumBlock (.float q)) =
      .ok ⟨⟨.float q, .int 0⟩⟩) ∧
    (∀ i : Int, Vertex.compile (vertexNumBlock (.int i)) =
      .ok ⟨⟨.int i, .int 0⟩⟩) :=
  ⟨rfl, fun _ => rfl, fun _ => rfl⟩

/-- Witness for C5 at the literal `5.5`. -/
theorem c5_vertex_number_passthrough_witness :
    Vertex.compile (vertexNumBlock (.float (11 / 2))) =
      .ok ⟨⟨.float (11 / 2), .int 0⟩⟩ :=
  c5_vertex_number_passthrough.2.1 (11 / 2)

/-- A `sector` block assigning `id` twice, the second time with a string
value: `sector { texturefloor="F"; textureceiling="C"; id=1; id="x"; }`. -/
def sectorDupBlock : Block :=
  ⟨⟨"sector", ⟨0, 6⟩⟩,
   [mkAssign "texturefloor" (.str [70]) ⟨9, 21⟩ ⟨22, 25⟩ ⟨9, 26⟩,
    mkAssign "textureceiling" (.str [67]) ⟨27, 41⟩ ⟨42, 45⟩ ⟨27, 46⟩,
    mkAssign "id" (.int 1) ⟨47, 49⟩ ⟨50, 51⟩ ⟨47, 52⟩,
    mkAssign "id" (.str [120]) ⟨53, 55⟩ ⟨56, 59⟩ ⟨53, 60⟩]⟩

/-- C8 counterexample.  A second assignment to an already-assigned field
whose value has the wrong type is reported as `MultipleAssignment` (with
the two spans), not as `InvalidAssignmentType` as the claim states:
`assign_once` checks the already-assigned slot *before* running the
type expectation. -/
theorem c8_counterexample :
    Sector.compile sectorDupBlock =
      .error (.MultipleAssignment "id" ⟨47, 52⟩ ⟨53, 60⟩) := rfl

/-- C8 (amended).  Within a block the per-assignment checks run in the
order: (1) identifier recognized, (2) field not already assigned, (3)
value type correct, (4) numeric value fits the width; consequently a
second assignment to an already-assigned field is always
`MultipleAssignment`, whatever its value, while on a fresh slot a
wrong-typed value is `InvalidAssignmentType` and an int that does not
fit is `OutOfRange`. -/
theorem c8_check_order :
    (∀ (α : Type) (x : α) (prev : Span)
      (expect : Spanned AssignmentExpr → Except CompileError α)
      (a : Spanned AssignmentExpr),
      assign_once (some (x, prev)) expect a =
        .error (.MultipleAssignment a.item.identifier.item prev a.span)) ∧
    (∀ (idv : String) (b : Bool) (is vs sp : Span),
      expect_i16_value ⟨⟨⟨idv, is⟩, ⟨.bool b, vs⟩⟩, sp⟩ =
        .error (.InvalidAssignmentType idv (.bool b) [.int] is vs)) ∧
    (∀ (idv : String) (i : Int) (is vs sp : Span),
      (i < -32768 ∨ 32767 < i) →
      expect_i16_value ⟨⟨⟨idv, is⟩, ⟨.int i, vs⟩⟩, sp⟩ =
        .error (.OutOfRange idv (-32768) 32767 vs)) := by
  refine ⟨fun α x prev expect a => rfl, fun idv b is vs sp => rfl, ?_⟩
  intro idv i is vs sp h
  have hne : ¬(-32768 ≤ i ∧ i ≤ 32767) := by omega
  show (if -32768 ≤ i ∧ i ≤ 32767 then (Except.ok i : Except CompileError Int)
    else .error (.OutOfRange idv (-32768) 32767 vs)) =
    .error (.OutOfRange idv (-32768) 32767 vs)
  exact if_neg hne

/-- Witness for C8: the duplicate `id` assignment of `sectorDupBlock`
(a wrong-typed second value) yields `MultipleAssignment`, and an
in-type but out-of-width literal 40000 yields `OutOfRange`. -/
theorem c8_check_order_witness :
    assign_once (some ((1 : Int), ⟨47, 52⟩)) expect_i16_value
        (mkAssign "id" (.str [120]) ⟨53, 55⟩ ⟨56, 59⟩ ⟨53, 60⟩) =
      .error (.MultipleAssignment "id" ⟨47, 52⟩ ⟨53, 60⟩) ∧
    expect_i16_value ⟨⟨⟨"id", ⟨0, 1⟩⟩, ⟨.int 40000, ⟨2, 3⟩⟩⟩, ⟨0, 3⟩⟩ =
      .error (.OutOfRange "id" (-32768) 32767 ⟨2, 3⟩) :=
  ⟨c8_check_order.1 Int 1 ⟨47, 52⟩ expect_i16_value _,
   c8_check_order.2.2 "id" 40000 ⟨0, 1⟩ ⟨2, 3⟩ ⟨0, 3⟩ (by decide)⟩

/-- A `sector` block whose `special` field is assigned the int `v`. -/
def sectorSpecialBlock (v : Int) : Block :=
  ⟨⟨"sector", ⟨0, 6⟩⟩,
   [mkAssign "texturefloor" (.str [70]) ⟨9, 21⟩ ⟨22, 25⟩ ⟨9, 26⟩,
    mkAssign "textureceiling" (.str [67]) ⟨27, 41⟩ ⟨42, 45⟩ ⟨27, 46⟩,
    mkAssign "special" (.int v) ⟨47, 54⟩ ⟨55, 56⟩ ⟨47, 57⟩]⟩

/-- C10. The sector-special decoder accepts exactly the code 0: in a
sector block, `special = 0;` compiles to the `None` sector special, and
every nonzero `i16` value is rejected with `SectorSpecial` carrying the
value and the assignment's span. -/
theorem c10_sector_special (v : Int) (h1 : -32768 ≤ v) (h2 : v ≤ 32767) :
    (sectorSpecialTryFrom v = .ok SectorSpecial.None ↔ v = 0) ∧
    (v = 0 → Sector.compile (sectorSpecialBlock v) =
      .ok ⟨0, 0, ⟨[70, 0, 0, 0, 0, 0, 0, 0]⟩, ⟨[67, 0, 0, 0, 0, 0, 0, 0]⟩, 160,
           SectorSpecial.None, 0⟩) ∧
    (v ≠ 0 → Sector.compile (sectorSpecialBlock v) =
      .error (.SectorSpecial v ⟨47, 57⟩)) := by
  refine ⟨⟨?_, ?_⟩, ?_, ?_⟩
  · intro h
    by_contra hv
    simp [sectorSpecialTryFrom, hv] at h
  · intro hv; subst hv; rfl
  · intro hv; subst hv; rfl
  · intro hv
    have hi16 : expect_i16_value
        (mkAssign "special" (.int v) ⟨47, 54⟩ ⟨55, 56⟩ ⟨47, 57⟩) = .ok v := by
      show (if -32768 ≤ v ∧ v ≤ 32767 then (Except.ok v : Except CompileError Int)
        else .error (.OutOfRange "special" (-32768) 32767 ⟨55, 56⟩)) = .ok v
      exact if_pos ⟨h1, h2⟩
    have hloop : sectorCompileLoop (sectorSpecialBlock v).assignments
        ⟨none, none, none, none, none, none, none⟩ =
        .ok ⟨none, none, some (⟨[70, 0, 0, 0, 0, 0, 0, 0]⟩, ⟨9, 26⟩),
             some (⟨[67, 0, 0, 0, 0, 0, 0, 0]⟩, ⟨27, 46⟩), none,
             some (v, ⟨47, 57⟩), none⟩ := by
      show (do
        let v2 ← (do
          let value ← expect_i16_value
            (mkAssign "special" (.int v) ⟨47, 54⟩ ⟨55, 56⟩ ⟨47, 57⟩)
          Except.ok (some (value, (⟨47, 57⟩ : Span))))
        sectorCompileLoop []
          ⟨none, none, some (⟨[70, 0, 0, 0, 0, 0, 0, 0]⟩, ⟨9, 26⟩),
           some (⟨[67, 0, 0, 0, 0, 0, 0, 0]⟩, ⟨27, 46⟩), none, v2, none⟩) = _
      rw [hi16]
      rfl
    have htf : sectorSpecialTryFrom v = .error v := if_neg hv
    have hbind : ∀ {α β : Type} (x : α) (f : α → Except CompileError β),
        (Except.ok x >>= f) = f x := fun x f => rfl
    simp only [Sector.compile, hloop, hbind]
    simp only [htf, Option.isNone_some, Bool.false_eq_true, if_false,
      List.append_nil, List.isEmpty_nil, if_true, Option.map_some, Option.getD_some]
    rfl

/-- Witness for C10 at `v = 7`: a nonzero special code is rejected. -/
theorem c10_sector_special_witness :
    (sectorSpecialTryFrom 7 = .ok SectorSpecial.None ↔ (7 : Int) = 0) ∧
    ((7 : Int) = 0 → Sector.compile (sectorSpecialBlock 7) =
      .ok ⟨0, 0, ⟨[70, 0, 0, 0, 0, 0, 0, 0]⟩, ⟨[67, 0, 0, 0, 0, 0, 0, 0]⟩, 160,
           SectorSpecial.None, 0⟩) ∧
    ((7 : Int) ≠ 0 → Sector.compile (sectorSpecialBlock 7) =
      .error (.SectorSpecial 7 ⟨47, 57⟩)) :=
  c10_sector_special 7 (by decide) (by decide)

/-! ## `src/map/udmf.rs`: the writer

Each entity's `write` method is modelled as the ordered list of
`write_assignment(key, value)` calls its body makes inside
`writer.write_block`; I/O cannot fail in the model, so the only error
source is `try_as_str` (`WriteError::String8Utf8`). -/

/-- `WriteError` (`src/map/udmf.rs`); the `Io` variant is rendered
`IoError`. -/
inductive WriteError where
  | Unlink (e : UnlinkError)
  | String8Utf8
  | IoError
deriving DecidableEq, Repr

/-- `<UdmfBlock for RawLineDef>::write`: the body writes `v1` and `v2`
and then stops at `// TODO: The rest of the owl`. -/
def RawLineDef.write (ld : RawLineDef) : Except WriteError (List (String × Value)) :=
  .ok [("v1", .int ld.from_idx), ("v2", .int ld.to_idx)]

/-- `<UdmfBlock for RawSideDef>::write`: offsets when nonzero, then each
texture unless its `try_as_str` view equals `"-"` (byte 45). -/
def RawSideDef.write (sd : RawSideDef) : Except WriteError (List (String × Value)) := do
  let l1 : List (String × Value) :=
    if sd.offset.x ≠ 0 then [("offsetx", .int sd.offset.x)] else []
  let l2 : List (String × Value) :=
    if sd.offset.y ≠ 0 then [("offsety", .int sd.offset.y)] else []
  let upper ← match sd.upper_texture.try_as_str with
    | .ok s => Except.ok s
    | .error _ => Except.error WriteError.String8Utf8
  let l3 : List (String × Value) :=
    if upper ≠ [45] then [("texturetop", .str upper)] else []
  let middle ← match sd.middle_texture.try_as_str with
    | .ok s => Except.ok s
    | .error _ => Except.error WriteError.String8Utf8
  let l4 : List (String × Value) :=
    if middle ≠ [45] then [("texturemiddle", .str middle)] else []
  let lower ← match sd.lower_texture.try_as_str with
    | .ok s => Except.ok s
    | .error _ => Except.error WriteError.String8Utf8
  let l5 : List (String × Value) :=
    if lower ≠ [45] then [("texturebottom", .str lower)] else []
  .ok (l1 ++ l2 ++ l3 ++ l4 ++ l5)

/-- `<UdmfBlock for Sector>::write`: heights when nonzero, both flats
always, light level unless 160, special (as `i16::from`) unless 0, tag
unless 0. -/
def Sector.write (s : Sector) : Except WriteError (List (String × Value)) := do
  let l1 : List (String × Value) :=
    if s.floor_height ≠ 0 then [("heightfloor", .int s.floor_height)] else []
  let l2 : List (String × Value) :=
    if s.ceiling_height ≠ 0 then [("heightceiling", .int s.ceiling_height)] else []
  let ff ← match s.floor_flat.try_as_str with
    | .ok v => Except.ok v
    | .error _ => Except.error WriteError.String8Utf8
  let cf ← match s.ceiling_flat.try_as_str with
    | .ok v => Except.ok v
    | .error _ => Except.error WriteError.String8Utf8
  let l3 : List (String × Value) :=
    [("texturefloor", .str ff), ("textureceiling", .str cf)]
  let l4 : List (String × Value) :=
    if s.light_level ≠ 160 then [("lightlevel", .int s.light_level)] else []
  let sp := sectorSpecialToInt s.special
  let l5 : List (String × Value) := if sp ≠ 0 then [("special", .int sp)] else []
  let l6 : List (String × Value) := if s.tag ≠ 0 then [("id", .int s.tag)] else []
  .ok (l1 ++ l2 ++ l3 ++ l4 ++ l5 ++ l6)

/-- C9.  The claim (a field is omitted exactly when it equals the schema
default; every non-default field is written; a line-def's `special` is
serialized through `wide_encode`) is contradicted by the code at two
places, both evaluated here:

* a line-def with the non-default special `DoorClose(3,16,0)` (and a
  left side) serializes to just `v1` and `v2` — the `special` field (and
  everything else) is dropped at the `// TODO: The rest of the owl`;
* a side-def whose three textures all *equal* the default `"-"` still
  writes all three texture fields (with the `try_as_str`-truncated empty
  value), because the comparison is made against the buggy projection. -/
theorem c9_writer_defaults_code_bug :
    RawLineDef.write ⟨0, 1, 2, none, lineDefFlagsDefault, ⟨10, [3, 16, 0]⟩,
        triggerFlagsDefault⟩ = .ok [("v1", .int 0), ("v2", .int 1)] ∧
    RawSideDef.write ⟨0, ⟨0, 0⟩, ⟨[45, 0, 0, 0, 0, 0, 0, 0]⟩,
        ⟨[45, 0, 0, 0, 0, 0, 0, 0]⟩, ⟨[45, 0, 0, 0, 0, 0, 0, 0]⟩⟩ =
      .ok [("texturetop", .str []), ("texturemiddle", .str []),
           ("texturebottom", .str [])] :=
  ⟨rfl, rfl⟩

/-! ## `src/map/udmf/parse.rs`: the winnow parser

A parser is a function from a state (current byte offset, remaining
characters) to `Option` of a result and the next state; `none` is a
winnow error (the file's only `cut_err` sits inside the quoted-string
parser, where the backtrack/fatal distinction is unobservable at the
translation-unit level because no other value alternative can consume a
`"`).  `repeat`-style combinators take explicit fuel; the top level
passes `input.length + 1`, which bounds the number of iterations of any
repeat since every accepted element consumes at least one character. -/

/-- Parser state: current offset and remaining input. -/
abbrev PState := Nat × List Char

/-- `char::is_whitespace` restricted to ASCII (U+0009–U+000D and space;
the non-ASCII Unicode white-space code points are not modelled — every
input considered here is ASCII). -/
def rustIsWhitespace (c : Char) : Bool :=
  c = ' ' || c = '\t' || c = '\n' || c = Char.ofNat 11 || c = Char.ofNat 12 || c = '\r'

/-- `take_till(0.., pat)`: consume characters until one satisfies `pat`
(or the input ends); returns the count consumed and the remainder. -/
def spanTill (pat : Char → Bool) : List Char → Nat × List Char
  | [] => (0, [])
  | c :: rest =>
    if pat c then (0, c :: rest)
    else
      let (k, rm) := spanTill pat rest
      (k + 1, rm)

/-- `take_till(1.., |c| c.is_whitespace())` as written in
`parse_whitespace_and_comments`: consume at least one character, up to
the first *whitespace* character (this is the inverted predicate under
scrutiny in C4 — it eats non-whitespace). -/
def takeTillWs1 (st : PState) : Option PState :=
  let (k, rm) := spanTill rustIsWhitespace st.2
  if k ≥ 1 then some (st.1 + k, rm) else none

/-- `parse_line_comment`: `//` then everything up to (excluding) the next
newline, or the rest of the input. -/
def parse_line_comment (st : PState) : Option PState :=
  match st.2 with
  | '/' :: '/' :: rest =>
    let (k, rm) := spanTill (fun c => c = '\n') rest
    some (st.1 + 2 + k, rm)
  | _ => none

/-- `parse_block_comment`: `delimited("/*", take_till(0.., b"*/"), "*/")`.
winnow's `take_till` with the byte-set `b"*/"` stops at the first `*` or
`/`, after which the literal `*/` must follow. -/
def parse_block_comment (st : PState) : Option PState :=
  match st.2 with
  | '/' :: '*' :: rest =>
    let (k, rm) := spanTill (fun c => c = '*' || c = '/') rest
    match rm with
    | '*' :: '/' :: rm2 => some (st.1 + 2 + k + 2, rm2)
    | _ => none
  | _ => none

/-- `parse_whitespace_and_comments`: `repeat(0.., alt((line comment,
block comment, take_till(1.., is_whitespace))))`; always succeeds, its
recognized text is discarded by every caller. -/
def parse_whitespace_and_comments : Nat → PState → PState
  | 0, st => st
  | fuel + 1, st =>
    match parse_line_comment st with
    | some st2 => parse_whitespace_and_comments fuel st2
    | none =>
      match parse_block_comment st with
      | some st2 => parse_whitespace_and_comments fuel st2
      | none =>
        match takeTillWs1 st with
        | some st2 => parse_whitespace_and_comments fuel st2
        | none => st

def isIdentStart (c : Char) : Bool :=
  ('a' ≤ c && c ≤ 'z') || ('A' ≤ c && c ≤ 'Z') || c = '_'

def isIdentCont (c : Char) : Bool :=
  isIdentStart c || ('0' ≤ c && c ≤ '9')

/-- `parse_identifier`: `[A-Za-z_][A-Za-z0-9_]*`. -/
def parse_identifier (st : PState) : Option (String × PState) :=
  match st.2 with
  | c :: rest =>
    if isIdentStart c then
      let (tk, rm) := rest.span isIdentCont
      some (String.mk (c :: tk), (st.1 + 1 + tk.length, rm))
    else none
  | [] => none

def digitsToNat (l : List Char) : Nat :=
  l.foldl (fun acc c => acc * 10 + (c.toNat - 48)) 0

def hexDigitVal (c : Char) : Nat :=
  if c.isDigit then c.toNat - 48
  else if 'a' ≤ c && c ≤ 'f' then c.toNat - 87
  else c.toNat - 55

def hexToNat (l : List Char) : Nat :=
  l.foldl (fun acc c => acc * 16 + hexDigitVal c) 0

/-- winnow `dec_int` at type `i32`: optional sign, one or more digits,
failing when the value overflows `i32`. -/
def parse_dec_int (st : PState) : Option (Int × PState) :=
  let (neg, pos1, rest1) :=
    match st.2 with
    | '-' :: r => (true, st.1 + 1, r)
    | '+' :: r => (false, st.1 + 1, r)
    | r => (false, st.1, r)
  let (ds, rm) := rest1.span Char.isDigit
  if ds.isEmpty then none
  else
    let n : Int := digitsToNat ds
    let v : Int := if neg then -n else n
    if -2147483648 ≤ v ∧ v ≤ 2147483647 then some (v, (pos1 + ds.length, rm))
    else none

/-- winnow `dec_uint` at `u32` followed by `i32::try_from`. -/
def parse_dec_uint_i32 (st : PState) : Option (Int × PState) :=
  let (ds, rm) := st.2.span Char.isDigit
  if ds.isEmpty then none
  else
    let n := digitsToNat ds
    if n ≤ 4294967295 then
      if n ≤ 2147483647 then some ((n : Int), (st.1 + ds.length, rm)) else none
    else none

/-- `preceded("0x", hex_uint)` at `u32` followed by `i32::try_from`. -/
def parse_hex_i32 (st : PState) : Option (Int × PState) :=
  match st.2 with
  | '0' :: 'x' :: rest =>
    let (hs, rm) := rest.span (fun c =>
      c.isDigit || ('a' ≤ c && c ≤ 'f') || ('A' ≤ c && c ≤ 'F'))
    if hs.isEmpty then none
    else
      let n := hexToNat hs
      if n ≤ 4294967295 then
        if n ≤ 2147483647 then some ((n : Int), (st.1 + 2 + hs.length, rm)) else none
      else none
  | _ => none

/-- `parse_integer`: `alt((dec_int, dec_uint → i32, "0x" hex → i32))`. -/
def parse_integer (st : PState) : Option (Int × PState) :=
  match parse_dec_int st with
  | some r => some r
  | none =>
    match parse_dec_uint_i32 st with
    | some r => some r
    | none => parse_hex_i32 st

/-- winnow `float` at `f64`, restricted to finite literals:
`[+-]? (digits [. digits*] | . digits) [(e|E) [+-]? digits]`; the
`inf`/`infinity`/`nan` forms have no `ℚ` image and are left out (no
claim exercises them). -/
def parse_float (st : PState) : Option (ℚ × PState) :=
  let (neg, pos1, rest1) :=
    match st.2 with
    | '-' :: r => (true, st.1 + 1, r)
    | '+' :: r => (false, st.1 + 1, r)
    | r => (false, st.1, r)
  let (ip, rm1) := rest1.span Char.isDigit
  let mantissa? : Option (ℚ × Nat × List Char) :=
    match rm1 with
    | '.' :: rm2 =>
      let (fp, rm3) := rm2.span Char.isDigit
      if ip.isEmpty && fp.isEmpty then none
      else
        let q : ℚ := (digitsToNat ip : ℚ) +
          (digitsToNat fp : ℚ) / ((10 : ℚ) ^ fp.length)
        some (q, pos1 + ip.length + 1 + fp.length, rm3)
    | _ =>
      if ip.isEmpty then none
      else some ((digitsToNat ip : ℚ), pos1 + ip.length, rm1)
  match mantissa? with
  | none => none
  | some (m, pos2, rm2) =>
    let withExp : Option (ℚ × Nat × List Char) :=
      match rm2 with
      | 'e' :: rm3 =>
        match rm3 with
        | '-' :: rm4 =>
          let (es, rm5) := rm4.span Char.isDigit
          if es.isEmpty then none
          else some (m / ((10 : ℚ) ^ digitsToNat es), pos2 + 2 + es.length, rm5)
        | '+' :: rm4 =>
          let (es, rm5) := rm4.span Char.isDigit
          if es.isEmpty then none
          else some (m * ((10 : ℚ) ^ digitsToNat es), pos2 + 2 + es.length, rm5)
        | _ =>
          let (es, rm5) := rm3.span Char.isDigit
          if es.isEmpty then none
          else some (m * ((10 : ℚ) ^ digitsToNat es), pos2 + 1 + es.length, rm5)
      | 'E' :: rm3 =>
        match rm3 with
        | '-' :: rm4 =>
          let (es, rm5) := rm4.span Char.isDigit
          if es.isEmpty then none
          else some (m / ((10 : ℚ) ^ digitsToNat es), pos2 + 2 + es.length, rm5)
        | '+' :: rm4 =>
          let (es, rm5) := rm4.span Char.isDigit
          if es.isEmpty then none
          else some (m * ((10 : ℚ) ^ digitsToNat es), pos2 + 2 + es.length, rm5)
        | _ =>
          let (es, rm5) := rm3.span Char.isDigit
          if es.isEmpty then none
          else some (m * ((10 : ℚ) ^ digitsToNat es), pos2 + 1 + es.length, rm5)
      | _ => some (m, pos2, rm2)
    match withExp with
    | none => none
    | some (q, pos3, rm3) => some (if neg then -q else q, (pos3, rm3))

/-- The escaped-string body after the opening quote: plain characters up
to `"`, with `\\`, `\"` and `\n` escapes; any other escape (or an
unclosed string) is a (fatal, `cut_err`) failure.  Returns the decoded
characters, the count of input characters consumed including the closing
quote, and the remainder. -/
def parse_str_body : List Char → Option (List Char × Nat × List Char)
  | [] => none
  | '"' :: rest => some ([], 1, rest)
  | '\\' :: [] => none
  | '\\' :: e :: rest =>
    let esc : Option Char :=
      if e = '\\' then some '\\'
      else if e = '"' then some '"'
      else if e = 'n' then some '\n'
      else none
    match esc with
    | some d =>
      match parse_str_body rest with
      | some (s, k, rm) => some (d :: s, k + 2, rm)
      | none => none
    | none => none
  | c :: rest =>
    match parse_str_body rest with
    | some (s, k, rm) => some (c :: s, k + 1, rm)
    | none => none

/-- `parse_quoted_string` (its `String` payload as UTF-8 bytes). -/
def parse_quoted_string (st : PState) : Option (List Nat × PState) :=
  match st.2 with
  | '"' :: rest =>
    match parse_str_body rest with
    | some (content, k, rm) => some (utf8Encode content, (st.1 + 1 + k, rm))
    | none => none
  | _ => none

/-- Case-insensitive literal match (winnow `Caseless`). -/
def matchCaseless : List Char → PState → Option PState
  | [], st => some st
  | c :: cs, st =>
    match st.2 with
    | d :: rest => if d.toLower = c then matchCaseless cs (st.1 + 1, rest) else none
    | [] => none

/-- `parse_bool`: case-insensitive `true` / `false`. -/
def parse_bool (st : PState) : Option (Bool × PState) :=
  match matchCaseless ['t', 'r', 'u', 'e'] st with
  | some st2 => some (true, st2)
  | none =>
    match matchCaseless ['f', 'a', 'l', 's', 'e'] st with
    | some st2 => some (false, st2)
    | none => none

/-- `parse_value`: `alt((integer, float, quoted string, bool))`, in that
order. -/
def parse_value (st : PState) : Option (Value × PState) :=
  match parse_integer st with
  | some (i, st2) => some (.int i, st2)
  | none =>
    match parse_float st with
    | some (q, st2) => some (.float q, st2)
    | none =>
      match parse_quoted_string st with
      | some (s, st2) => some (.str s, st2)
      | none =>
        match parse_bool st with
        | some (b, st2) => some (.bool b, st2)
        | none => none

/-- `parse_assignment_expr`: ws, spanned identifier, ws, `=`, ws, spanned
value, ws, `;`. -/
def parse_assignment_expr (fuel : Nat) (st : PState) :
    Option (AssignmentExpr × PState) :=
  let st1 := parse_whitespace_and_comments fuel st
  match parse_identifier st1 with
  | none => none
  | some (ident, st2) =>
    let st3 := parse_whitespace_and_comments fuel st2
    match st3.2 with
    | '=' :: rest3 =>
      let st5 := parse_whitespace_and_comments fuel (st3.1 + 1, rest3)
      match parse_value st5 with
      | none => none
      | some (v, st6) =>
        let st7 := parse_whitespace_and_comments fuel st6
        match st7.2 with
        | ';' :: rest7 =>
          some (⟨⟨ident, ⟨st1.1, st2.1⟩⟩, ⟨v, ⟨st5.1, st6.1⟩⟩⟩, (st7.1 + 1, rest7))
        | _ => none
    | _ => none

/-- The `repeat(0.., parse_assignment_expr.with_span())` inside
`parse_block`; the span of each element starts before its leading
whitespace. -/
def blockAssignLoop : Nat → PState → List (Spanned AssignmentExpr) →
    List (Spanned AssignmentExpr) × PState
  | 0, st, acc => (acc.reverse, st)
  | fuel + 1, st, acc =>
    match parse_assignment_expr fuel st with
    | some (a, st2) => blockAssignLoop fuel st2 (⟨a, ⟨st.1, st2.1⟩⟩ :: acc)
    | none => (acc.reverse, st)

/-- `parse_block`: ws, spanned identifier, ws, `{`, assignments, ws, `}`. -/
def parse_block (fuel : Nat) (st : PState) : Option (Block × PState) :=
  let st1 := parse_whitespace_and_comments fuel st
  match parse_identifier st1 with
  | none => none
  | some (ident, st2) =>
    let st3 := parse_whitespace_and_comments fuel st2
    match st3.2 with
    | '{' :: rest3 =>
      let (assigns, st4) := blockAssignLoop fuel (st3.1 + 1, rest3) []
      let st5 := parse_whitespace_and_comments fuel st4
      match st5.2 with
      | '}' :: rest5 => some (⟨⟨ident, ⟨st1.1, st2.1⟩⟩, assigns⟩, (st5.1 + 1, rest5))
      | _ => none
    | _ => none

/-- `ast::GlobalExpr`. -/
inductive GlobalExpr where
  | AssignmentExpr (a : Spanned AssignmentExpr)
  | Block (b : Spanned Block)
deriving DecidableEq, Repr

/-- `ast::TranslationUnit`. -/
structure TranslationUnit where
  expressions : List GlobalExpr
deriving DecidableEq, Repr

/-- The `repeat_till0` of `parse_translation_unit`: each round first
tries the terminator `(parse_whitespace_and_comments, eof)` on the
current input, then the spanned block/assignment alternation. -/
def tuLoop : Nat → PState → List GlobalExpr → Option (List GlobalExpr × PState)
  | 0, _, _ => none
  | fuel + 1, st, acc =>
    let stw := parse_whitespace_and_comments fuel st
    if stw.2.isEmpty then some (acc.reverse, stw)
    else
      match parse_block fuel st with
      | some (b, st2) => tuLoop fuel st2 (.Block ⟨b, ⟨st.1, st2.1⟩⟩ :: acc)
      | none =>
        match parse_assignment_expr fuel st with
        | some (a, st2) => tuLoop fuel st2 (.AssignmentExpr ⟨a, ⟨st.1, st2.1⟩⟩ :: acc)
        | none => none

/-- `parse_translation_unit` on a whole input. -/
def parse_translation_unit (input : List Char) : Option TranslationUnit :=
  match tuLoop (input.length + 1) (0, input) [] with
  | some (es, _) => some ⟨es⟩
  | none => none

/-- C4.  The claim (whitespace and comments are insignificant between
tokens; assignments and blocks separated by spaces and newlines parse
without error) is contradicted by the code:
`parse_whitespace_and_comments` uses `take_till(1.., is_whitespace)`,
which consumes characters *until* whitespace — i.e. it eats the
non-whitespace token text itself and refuses actual whitespace.  The
evaluations below show the empty and comment-only inputs parse, while a
single space and a blank-separated assignment both fail, and a fully
space-free translation unit is consumed whole by the "whitespace"
skipper, parsing to the *empty* translation unit — its block silently
dropped; the final conjunct exhibits the inverted predicate directly:
skipping "whitespace" in front of `x = 5;` consumes the identifier `x`
and stops at the space. -/
theorem c4_whitespace_code_bug :
    parse_translation_unit [] = some ⟨[]⟩ ∧
    parse_translation_unit "//c".toList = some ⟨[]⟩ ∧
    parse_translation_unit [' '] = none ∧
    parse_translation_unit "x = 5;\n".toList = none ∧
    parse_translation_unit "vertex{x=5;y=6;}".toList = some ⟨[]⟩ ∧
    parse_whitespace_and_comments 10 (0, "x = 5;".toList) = (1, " = 5;".toList) := by
  refine ⟨rfl, rfl, rfl, rfl, rfl, rfl⟩

end Waddle
